import Mathlib

/-!
# simuPOP mating schemes (`src/mating.h`)

A shallow embedding of the mating-scheme classes declared in `mating.h`:
their data members, constructors, copy constructors, destructors, `clone`,
`isCompatible`, `submitScratch`, `resetNumOffspring` and the base `mate`.
The member functions that `mating.h` only declares (`mating::mating`,
`numOffspring`, `prepareScratchPop`, `randomMating::mate`) and the classes of
population.h and operator.h are modelled from the specification; each such
definition says so.

* `PyObject*` is an optional object identity; the interpreter state is the
  table of reference counts together with the callable predicate that
  `PyCallable_Check` consults.
* `double` parameters are exact rationals.
* A C++ constructor that throws after its base sub-object has been built
  unwinds that base sub-object (its destructor runs); the class's own
  destructor does not run.
-/

namespace simuPOP

/-! ## The scripting host -/

/-- Identity of a Python object. -/
abbrev PyObj := Nat

/-- A `PyObject*`: `none` is `NULL`. -/
abbrev PyPtr := Option PyObj

/-- The part of the interpreter state the mating schemes touch. -/
structure PyHeap where
  /-- reference count of every object -/
  refcnt : PyObj → Int
  /-- which objects are callable -/
  callable : PyObj → Bool

/-- Macro `Py_INCREF(o)` for a non-null `o`. -/
def Py_INCREF (o : PyObj) (h : PyHeap) : PyHeap :=
  { refcnt := fun x => if x = o then h.refcnt x + 1 else h.refcnt x
    callable := h.callable }

/-- Macro `Py_DECREF(o)` for a non-null `o`. -/
def Py_DECREF (o : PyObj) (h : PyHeap) : PyHeap :=
  { refcnt := fun x => if x = o then h.refcnt x - 1 else h.refcnt x
    callable := h.callable }

/-- Macro `Py_XINCREF(p)`: increment unless `p` is `NULL`; it is also what
`if (p != NULL) Py_INCREF(p)` does. -/
def Py_XINCREF (p : PyPtr) (h : PyHeap) : PyHeap :=
  match p with
  | some o => Py_INCREF o h
  | none => h

/-- Macro `Py_XDECREF(p)`: decrement unless `p` is `NULL`; it is also what
`if (p != NULL) Py_DECREF(p)` does. -/
def Py_XDECREF (p : PyPtr) (h : PyHeap) : PyHeap :=
  match p with
  | some o => Py_DECREF o h
  | none => h

/-- Function `PyCallable_Check(p)` of the Python C API; it answers 0 for
`NULL`. -/
def PyCallable_Check (h : PyHeap) (p : PyPtr) : Bool :=
  match p with
  | some o => h.callable o
  | none => false

/-- What a call can end with instead of a value. `NullDereference` stands for
the undefined behaviour of `Py_INCREF(NULL)`. -/
inductive Exn where
  | ValueError (msg : String)
  | SystemError (msg : String)
  | NullDereference
  deriving DecidableEq, Repr

/-- Outcome of an operation on the heap: a value or an exception, and the
heap it leaves behind. -/
structure Res (α : Type) where
  out : Except Exn α
  heap : PyHeap

/-! ## Class `mating`: data members -/

def MATE_NumOffspring : Nat := 1
def MATE_NumOffspringEachFamily : Nat := 2
def MATE_GeometricDistribution : Nat := 3
def MATE_PoissonDistribution : Nat := 4
def MATE_BinomialDistribution : Nat := 5
def MATE_UniformDistribution : Nat := 6

/-- The data members of class `mating` (lines 230-257). -/
structure mating where
  m_numOffspring : ℚ
  m_numOffspringFunc : PyPtr
  m_maxNumOffspring : Nat
  m_mode : Nat
  m_firstOffspring : Bool
  m_subPopSize : List Nat
  m_subPopSizeExpr : String
  m_subPopSizeFunc : PyPtr
  deriving DecidableEq, Repr

/-- The parameter list of `mating::mating(...)`. -/
structure MatingArgs where
  numOffspring : ℚ
  numOffspringFunc : PyPtr
  maxNumOffspring : Nat
  mode : Nat
  newSubPopSize : List Nat
  newSubPopSizeExpr : String
  newSubPopSizeFunc : PyPtr
  deriving DecidableEq, Repr

/-- The default arguments of `mating::mating` (lines 131-137). -/
def MatingArgs.default : MatingArgs :=
  { numOffspring := 1
    numOffspringFunc := none
    maxNumOffspring := 0
    mode := MATE_NumOffspring
    newSubPopSize := []
    newSubPopSizeExpr := ""
    newSubPopSizeFunc := none }

/-- Modelled from the spec: the body of the constructor `mating::mating(...)`
is in mating.cpp, which is not among the sources. Following the spec, the
constructor raises a configuration error (`ValueError`) for an invalid
callback (present but not callable) and for a mode tag outside the six
family-size distributions; otherwise it stores its arguments, starts with the
once-per-generation cache cleared, and acquires one reference to every
callback it stores. -/
def mating.ctor (a : MatingArgs) (h : PyHeap) : Res mating :=
  if a.numOffspringFunc ≠ none ∧ PyCallable_Check h a.numOffspringFunc = false then
    ⟨.error (.ValueError "Passed variable is not a callable python function."), h⟩
  else if a.newSubPopSizeFunc ≠ none ∧ PyCallable_Check h a.newSubPopSizeFunc = false then
    ⟨.error (.ValueError "Passed variable is not a callable python function."), h⟩
  else if a.mode < MATE_NumOffspring ∨ MATE_UniformDistribution < a.mode then
    ⟨.error (.ValueError "Unknown mode of family size distribution."), h⟩
  else
    ⟨.ok { m_numOffspring := a.numOffspring
           m_numOffspringFunc := a.numOffspringFunc
           m_maxNumOffspring := a.maxNumOffspring
           m_mode := a.mode
           m_firstOffspring := true
           m_subPopSize := a.newSubPopSize
           m_subPopSizeExpr := a.newSubPopSizeExpr
           m_subPopSizeFunc := a.newSubPopSizeFunc },
      Py_XINCREF a.newSubPopSizeFunc (Py_XINCREF a.numOffspringFunc h)⟩

/-- Copy constructor `mating::mating(const mating& rhs)` (lines 139-152). -/
def mating.copy (rhs : mating) (h : PyHeap) : mating × PyHeap :=
  let h1 := Py_XINCREF rhs.m_subPopSizeFunc h
  let h2 := Py_XINCREF rhs.m_numOffspringFunc h1
  ({ m_numOffspring := rhs.m_numOffspring
     m_numOffspringFunc := rhs.m_numOffspringFunc
     m_maxNumOffspring := rhs.m_maxNumOffspring
     m_mode := rhs.m_mode
     m_firstOffspring := true
     m_subPopSize := rhs.m_subPopSize
     m_subPopSizeExpr := rhs.m_subPopSizeExpr
     m_subPopSizeFunc := rhs.m_subPopSizeFunc }, h2)

/-- Destructor `mating::~mating()` (lines 155-161). -/
def mating.dtor (s : mating) (h : PyHeap) : PyHeap :=
  let h1 := Py_XDECREF s.m_subPopSizeFunc h
  Py_XDECREF s.m_numOffspringFunc h1

/-- Method `mating::resetNumOffspring()` (lines 218-221). -/
def mating.resetNumOffspring (s : mating) : mating :=
  { s with m_firstOffspring := true }

/-! ## The scheme classes -/

/-- The mating-scheme classes of `mating.h`, each with the data members of its
base sub-object `mating` and its own members. Working storage that every
`mate` call rebuilds (weighted samplers, sex index vectors, the iterator
stack) carries no configuration and is left out; `m_famSize` is kept because
`submitScratch` reports it. `controlledMating` owns the scheme it wraps. -/
inductive Scheme where
  | mating (base : mating)
  | noMating (base : mating)
  | binomialSelection (base : mating) (m_famSize : List Int)
  | randomMating (base : mating) (m_contWhenUniSex : Bool) (m_famSize : List Int)
  | controlledMating (base : mating) (m_matingScheme : Scheme)
      (m_loci m_alleles : List Int) (m_freqFunc : PyPtr) (m_range : ℚ)
  | controlledBinomialSelection (base : mating) (m_famSize : List Int)
      (m_loci m_alleles : List Int) (m_freqFunc : PyPtr)
  | controlledRandomMating (base : mating) (m_contWhenUniSex : Bool) (m_famSize : List Int)
      (m_loci m_alleles : List Int) (m_freqFunc : PyPtr)
  | pyMating (base : mating) (m_mateFunc : PyPtr)
  deriving DecidableEq, Repr

/-- The class of a scheme object. -/
inductive Variant where
  | mating | noMating | binomialSelection | randomMating | controlledMating
  | controlledBinomialSelection | controlledRandomMating | pyMating
  deriving DecidableEq, Repr

def Scheme.variant : Scheme → Variant
  | .mating _ => .mating
  | .noMating _ => .noMating
  | .binomialSelection _ _ => .binomialSelection
  | .randomMating _ _ _ => .randomMating
  | .controlledMating _ _ _ _ _ _ => .controlledMating
  | .controlledBinomialSelection _ _ _ _ _ => .controlledBinomialSelection
  | .controlledRandomMating _ _ _ _ _ _ => .controlledRandomMating
  | .pyMating _ _ => .pyMating

/-- The base sub-object of a scheme. -/
def Scheme.base : Scheme → simuPOP.mating
  | .mating b => b
  | .noMating b => b
  | .binomialSelection b _ => b
  | .randomMating b _ _ => b
  | .controlledMating b _ _ _ _ _ => b
  | .controlledBinomialSelection b _ _ _ _ => b
  | .controlledRandomMating b _ _ _ _ _ => b
  | .pyMating b _ => b

/-- The seven configuration values of the base sub-object, in the order
numOffspring, numOffspringFunc, maxNumOffspring, mode, newSubPopSize,
newSubPopSizeExpr, newSubPopSizeFunc. -/
def mating.config (b : mating) : ℚ × PyPtr × Nat × Nat × List Nat × String × PyPtr :=
  (b.m_numOffspring, b.m_numOffspringFunc, b.m_maxNumOffspring, b.m_mode,
    b.m_subPopSize, b.m_subPopSizeExpr, b.m_subPopSizeFunc)

/-- The control spec of a controlled scheme: loci, alleles, frequency callback
and, where the class has one, the range. -/
def Scheme.controlSpec : Scheme → Option (List Int × List Int × PyPtr × Option ℚ)
  | .controlledMating _ _ loci alleles f range => some (loci, alleles, f, some range)
  | .controlledBinomialSelection _ _ loci alleles f => some (loci, alleles, f, none)
  | .controlledRandomMating _ _ _ loci alleles f => some (loci, alleles, f, none)
  | _ => none

/-- Macro `DBG_FAILIF(cond, ...)`: the macro is defined in utility.h, which is not
among the sources, so whether the debugging checks are compiled in is a
parameter: with `debug` the macro throws when `cond` holds, without it the
macro is empty. -/
def DBG_FAILIF (debug cond : Bool) : Bool := debug && cond

/-- Constructor `noMating::noMating()` (lines 271-276). -/
def noMating.ctor (h : PyHeap) : Res Scheme :=
  match mating.ctor ⟨1, none, 0, MATE_NumOffspring, [], "", none⟩ h with
  | ⟨.ok b, h1⟩ => ⟨.ok (.noMating b), h1⟩
  | ⟨.error e, h1⟩ => ⟨.error e, h1⟩

/-- Constructor `binomialSelection::binomialSelection(...)` (lines 326-338). -/
def binomialSelection.ctor (a : MatingArgs) (h : PyHeap) : Res Scheme :=
  match mating.ctor a h with
  | ⟨.ok b, h1⟩ => ⟨.ok (.binomialSelection b []), h1⟩
  | ⟨.error e, h1⟩ => ⟨.error e, h1⟩

/-- Constructor `randomMating::randomMating(...)` (lines 427-443). -/
def randomMating.ctor (a : MatingArgs) (contWhenUniSex : Bool) (h : PyHeap) : Res Scheme :=
  match mating.ctor a h with
  | ⟨.ok b, h1⟩ => ⟨.ok (.randomMating b contWhenUniSex []), h1⟩
  | ⟨.error e, h1⟩ => ⟨.error e, h1⟩

/-- Virtual `clone()` of every class: `new T(*this)`, that is the copy constructor of
the object's own class (lines 139-152, 577-585, 685-693, 820-828, 952-957; the
classes without a user-written copy constructor copy member by member on top
of `mating(rhs)`). The copy constructor of `controlledMating` names no base
initialiser, so its base sub-object is built by `mating()` with the default
arguments. `Py_INCREF(m_freqFunc)` in the three controlled classes is not
guarded. -/
def Scheme.clone : Scheme → PyHeap → Res Scheme
  | .mating b, h => ⟨.ok (.mating (b.copy h).1), (b.copy h).2⟩
  | .noMating b, h => ⟨.ok (.noMating (b.copy h).1), (b.copy h).2⟩
  | .binomialSelection b fam, h => ⟨.ok (.binomialSelection (b.copy h).1 fam), (b.copy h).2⟩
  | .randomMating b cont fam, h => ⟨.ok (.randomMating (b.copy h).1 cont fam), (b.copy h).2⟩
  | .controlledMating _ m loci alleles freq range, h =>
    match mating.ctor MatingArgs.default h with
    | ⟨.error e, h1⟩ => ⟨.error e, h1⟩
    | ⟨.ok b, h1⟩ =>
      match freq with
      | none => ⟨.error .NullDereference, h1⟩
      | some f =>
        match m.clone (Py_INCREF f h1) with
        | ⟨.ok m1, h3⟩ => ⟨.ok (.controlledMating b m1 loci alleles (some f) range), h3⟩
        | ⟨.error e, h3⟩ => ⟨.error e, b.dtor h3⟩
  | .controlledBinomialSelection b fam loci alleles freq, h =>
    match freq with
    | none => ⟨.error .NullDereference, (b.copy h).2⟩
    | some f =>
      ⟨.ok (.controlledBinomialSelection (b.copy h).1 fam loci alleles (some f)),
        Py_INCREF f (b.copy h).2⟩
  | .controlledRandomMating b cont fam loci alleles freq, h =>
    match freq with
    | none => ⟨.error .NullDereference, (b.copy h).2⟩
    | some f =>
      ⟨.ok (.controlledRandomMating (b.copy h).1 cont fam loci alleles (some f)),
        Py_INCREF f (b.copy h).2⟩
  | .pyMating b f, h => ⟨.ok (.pyMating (b.copy h).1 f), Py_XINCREF f (b.copy h).2⟩

/-- The destructor of every class, followed by the destructors of its bases
(lines 155-161, 588-593, 696-700, 831-835, 938-941). -/
def Scheme.destroy : Scheme → PyHeap → PyHeap
  | .mating b, h => b.dtor h
  | .noMating b, h => b.dtor h
  | .binomialSelection b _, h => b.dtor h
  | .randomMating b _ _, h => b.dtor h
  | .controlledMating b m _ _ freq _, h => b.dtor (m.destroy (Py_XDECREF freq h))
  | .controlledBinomialSelection b _ _ _ freq, h => b.dtor (Py_XDECREF freq h)
  | .controlledRandomMating b _ _ _ _ freq, h => b.dtor (Py_XDECREF freq h)
  | .pyMating b f, h => b.dtor (Py_XDECREF f h)

/-- Constructor `controlledMating::controlledMating(matingScheme, loci, alleles, freqFunc,
range)` (lines 551-574). The base sub-object is built with the default
arguments. -/
def controlledMating.ctor (debug : Bool) (matingScheme : Scheme) (loci alleles : List Int)
    (freqFunc : PyPtr) (range : ℚ) (h : PyHeap) : Res Scheme :=
  match mating.ctor MatingArgs.default h with
  | ⟨.error e, h1⟩ => ⟨.error e, h1⟩
  | ⟨.ok b, h1⟩ =>
    if DBG_FAILIF debug loci.isEmpty then
      ⟨.error (.ValueError "Have to specify a locus (or a loci) to control"), b.dtor h1⟩
    else if DBG_FAILIF debug alleles.isEmpty then
      ⟨.error (.ValueError "Have to specify allele at each locus"), b.dtor h1⟩
    else if DBG_FAILIF debug (loci.length != alleles.length) then
      ⟨.error (.ValueError "Should specify allele for each locus"), b.dtor h1⟩
    else
      match freqFunc with
      | none => ⟨.error (.ValueError "Please specify a valid frequency function"), b.dtor h1⟩
      | some f =>
        if h1.callable f = false then
          ⟨.error (.ValueError "Please specify a valid frequency function"), b.dtor h1⟩
        else
          match matingScheme.clone (Py_INCREF f h1) with
          | ⟨.ok m, h3⟩ => ⟨.ok (.controlledMating b m loci alleles (some f) range), h3⟩
          | ⟨.error e, h3⟩ => ⟨.error e, b.dtor h3⟩

/-- Constructor `controlledBinomialSelection::controlledBinomialSelection(...)`
(lines 656-682). -/
def controlledBinomialSelection.ctor (loci alleles : List Int) (freqFunc : PyPtr)
    (a : MatingArgs) (h : PyHeap) : Res Scheme :=
  match mating.ctor a h with
  | ⟨.error e, h1⟩ => ⟨.error e, h1⟩
  | ⟨.ok b, h1⟩ =>
    if loci.isEmpty || loci.length != alleles.length then
      ⟨.error (.ValueError "Please specify loci and corresponding alleles"), b.dtor h1⟩
    else
      match freqFunc with
      | none => ⟨.error (.ValueError "Please specify a valid frequency function"), b.dtor h1⟩
      | some f =>
        if h1.callable f = false then
          ⟨.error (.ValueError "Please specify a valid frequency function"), b.dtor h1⟩
        else
          ⟨.ok (.controlledBinomialSelection b [] loci alleles (some f)), Py_INCREF f h1⟩

/-- Constructor `controlledRandomMating::controlledRandomMating(...)` (lines 789-817).
`acceptScheme` is accepted and not stored. -/
def controlledRandomMating.ctor (loci alleles : List Int) (freqFunc : PyPtr)
    (_acceptScheme : Int) (a : MatingArgs) (contWhenUniSex : Bool) (h : PyHeap) : Res Scheme :=
  match mating.ctor a h with
  | ⟨.error e, h1⟩ => ⟨.error e, h1⟩
  | ⟨.ok b, h1⟩ =>
    match freqFunc with
    | none => ⟨.error (.ValueError "Please specify a valid frequency function"), b.dtor h1⟩
    | some f =>
      if h1.callable f = false then
        ⟨.error (.ValueError "Please specify a valid frequency function"), b.dtor h1⟩
      else
        ⟨.ok (.controlledRandomMating b contWhenUniSex [] loci alleles (some f)),
          Py_INCREF f h1⟩

/-- Constructor `pyMating::pyMating(func, newSubPopSize, newSubPopSizeExpr,
newSubPopSizeFunc)` (lines 922-935). -/
def pyMating.ctor (func : PyPtr) (newSubPopSize : List Nat) (newSubPopSizeExpr : String)
    (newSubPopSizeFunc : PyPtr) (h : PyHeap) : Res Scheme :=
  match mating.ctor ⟨1, none, 0, MATE_NumOffspring, newSubPopSize, newSubPopSizeExpr,
      newSubPopSizeFunc⟩ h with
  | ⟨.error e, h1⟩ => ⟨.error e, h1⟩
  | ⟨.ok b, h1⟩ =>
    if PyCallable_Check h1 func = false then
      ⟨.error (.ValueError "Passed variable is not a callable python function."), b.dtor h1⟩
    else
      ⟨.ok (.pyMating b func), Py_XINCREF func h1⟩

/-- Applies a member function of the base class to the base sub-object of a
scheme; `resetNumOffspring()` and `numOffspring(gen)` are inherited unchanged
by every class and act there. -/
def Scheme.withBase (f : simuPOP.mating → simuPOP.mating) : Scheme → Scheme
  | .mating b => .mating (f b)
  | .noMating b => .noMating (f b)
  | .binomialSelection b fam => .binomialSelection (f b) fam
  | .randomMating b c fam => .randomMating (f b) c fam
  | .controlledMating b m l a g r => .controlledMating (f b) m l a g r
  | .controlledBinomialSelection b fam l a g => .controlledBinomialSelection (f b) fam l a g
  | .controlledRandomMating b c fam l a g => .controlledRandomMating (f b) c fam l a g
  | .pyMating b g => .pyMating (f b) g

/-! ## Reference bookkeeping -/

/-- The callbacks the base sub-object holds (null pointers hold nothing). -/
def mating.callbacks (b : mating) : List PyObj :=
  b.m_subPopSizeFunc.toList ++ b.m_numOffspringFunc.toList

/-- Every callback reference a scheme object holds, one entry per pointer
member: its own callback, those of the scheme it owns, and those of its base
sub-object. -/
def Scheme.callbacks : Scheme → List PyObj
  | .mating b => b.callbacks
  | .noMating b => b.callbacks
  | .binomialSelection b _ => b.callbacks
  | .randomMating b _ _ => b.callbacks
  | .controlledMating b m _ _ f _ => f.toList ++ (m.callbacks ++ b.callbacks)
  | .controlledBinomialSelection b _ _ _ f => f.toList ++ b.callbacks
  | .controlledRandomMating b _ _ _ _ f => f.toList ++ b.callbacks
  | .pyMating b f => f.toList ++ b.callbacks

/-- Number of references to `x` held by the live schemes. -/
def holdings (x : PyObj) (live : List Scheme) : Nat :=
  (live.map fun s => s.callbacks.count x).sum

/-- Number of live schemes that hold `x`. -/
def holders (x : PyObj) (live : List Scheme) : Nat :=
  (live.filter fun s => decide (x ∈ s.callbacks)).length

/-- A constructor call of one of the scheme classes. `controlledMating` takes
the scheme to wrap by reference: the index of a live scheme. -/
inductive CtorCall where
  | mating (a : MatingArgs)
  | noMating
  | binomialSelection (a : MatingArgs)
  | randomMating (a : MatingArgs) (contWhenUniSex : Bool)
  | controlledMating (matingScheme : Nat) (loci alleles : List Int) (freqFunc : PyPtr)
      (range : ℚ)
  | controlledBinomialSelection (loci alleles : List Int) (freqFunc : PyPtr) (a : MatingArgs)
  | controlledRandomMating (loci alleles : List Int) (freqFunc : PyPtr) (acceptScheme : Int)
      (a : MatingArgs) (contWhenUniSex : Bool)
  | pyMating (func : PyPtr) (newSubPopSize : List Nat) (newSubPopSizeExpr : String)
      (newSubPopSizeFunc : PyPtr)

/-- What the program does with scheme objects. -/
inductive Op where
  | construct (c : CtorCall)
  | clone (i : Nat)
  | destroy (i : Nat)

/-- The interpreter heap and the scheme objects that are alive. -/
structure World where
  heap : PyHeap
  live : List Scheme

/-- Runs a constructor call; `none` when the call names a scheme that does
not exist. -/
def CtorCall.run (debug : Bool) (live : List Scheme) (h : PyHeap) :
    CtorCall → Option (Res Scheme)
  | .mating a =>
    match mating.ctor a h with
    | ⟨.ok b, h1⟩ => some ⟨.ok (.mating b), h1⟩
    | ⟨.error e, h1⟩ => some ⟨.error e, h1⟩
  | .noMating => some (noMating.ctor h)
  | .binomialSelection a => some (binomialSelection.ctor a h)
  | .randomMating a c => some (randomMating.ctor a c h)
  | .controlledMating i loci alleles f range =>
    match live[i]? with
    | some m => some (controlledMating.ctor debug m loci alleles f range h)
    | none => none
  | .controlledBinomialSelection loci alleles f a =>
    some (controlledBinomialSelection.ctor loci alleles f a h)
  | .controlledRandomMating loci alleles f acc a c =>
    some (controlledRandomMating.ctor loci alleles f acc a c h)
  | .pyMating f size expr sizeFunc => some (pyMating.ctor f size expr sizeFunc h)

/-- Adds the object an operation produced, if it produced one. -/
def World.record (w : World) (r : Res Scheme) : World :=
  match r.out with
  | .ok s => { heap := r.heap, live := w.live ++ [s] }
  | .error _ => { heap := r.heap, live := w.live }

/-- One operation: construct a scheme, clone a live scheme, or destroy one. -/
def World.step (debug : Bool) (w : World) : Op → World
  | .construct c =>
    match c.run debug w.live w.heap with
    | some r => w.record r
    | none => w
  | .clone i =>
    match w.live[i]? with
    | some s => w.record (s.clone w.heap)
    | none => w
  | .destroy i =>
    match w.live[i]? with
    | some s => { heap := s.destroy w.heap, live := w.live.eraseIdx i }
    | none => w

/-- A sequence of operations. -/
def World.run (debug : Bool) (w : World) (ops : List Op) : World :=
  ops.foldl (World.step debug) w

/-! ## Family size -/

/-- The injected random source: samplers for the three named distributions and
one raw non-negative draw. -/
structure RandomSource where
  randGeometric : ℚ → Nat
  randPoisson : ℚ → Nat
  randBinomial : Nat → ℚ → Nat
  raw : Nat

/-- Modelled from the spec: the body of `mating::numOffspring(int gen)` is in
mating.cpp, which is not among the sources. Per mode: (1) the configured count,
with a callback asked once on the first call of a generation and its answer
cached; (2) the callback asked at every call; (3) geometric with the
configured or called parameter; (4) Poisson; (5) binomial with maximum and
probability; (6) an integer of the interval from the floor of the mean to the
maximum, both inclusive, picked by the raw draw. The result is unsigned, so the
interval starts at zero at the earliest; for an empty interval the spec
names no value and the lower end is returned. `call f gen` is the number the
callback `f` answers. -/
def mating.numOffspring (s : mating) (call : PyObj → Int → ℚ) (rng : RandomSource)
    (gen : Int) : Nat × mating :=
  if s.m_mode = MATE_NumOffspring then
    match s.m_numOffspringFunc with
    | some f =>
      if s.m_firstOffspring then
        (⌊call f gen⌋.toNat,
          { s with m_numOffspring := call f gen, m_firstOffspring := false })
      else (⌊s.m_numOffspring⌋.toNat, s)
    | none => (⌊s.m_numOffspring⌋.toNat, s)
  else if s.m_mode = MATE_NumOffspringEachFamily then
    match s.m_numOffspringFunc with
    | some f => (⌊call f gen⌋.toNat, s)
    | none => (⌊s.m_numOffspring⌋.toNat, s)
  else if s.m_mode = MATE_GeometricDistribution then
    match s.m_numOffspringFunc with
    | some f => (rng.randGeometric (call f gen), s)
    | none => (rng.randGeometric s.m_numOffspring, s)
  else if s.m_mode = MATE_PoissonDistribution then
    (rng.randPoisson s.m_numOffspring, s)
  else if s.m_mode = MATE_BinomialDistribution then
    (rng.randBinomial s.m_maxNumOffspring s.m_numOffspring, s)
  else
    let lo := ⌊s.m_numOffspring⌋.toNat
    if lo ≤ s.m_maxNumOffspring then
      (lo + rng.raw % (s.m_maxNumOffspring - lo + 1), s)
    else (lo, s)

/-! ## Scheme objects that exist -/

/-- Replaces the recorded family sizes of a scheme that keeps them. -/
def Scheme.setFamSize (v : List Int) : Scheme → Scheme
  | .binomialSelection b _ => .binomialSelection b v
  | .randomMating b c _ => .randomMating b c v
  | .controlledBinomialSelection b _ l a g => .controlledBinomialSelection b v l a g
  | .controlledRandomMating b c _ l a g => .controlledRandomMating b c v l a g
  | s => s

/-- The scheme objects a program can hold: built by a constructor that
returned, copied by `clone`, and changed only by the members that write to a
scheme (`resetNumOffspring`, `numOffspring`, the family sizes a mating
records, and the same for the scheme a controller owns). -/
inductive Reachable : Scheme → Prop where
  | mating_ctor (a : MatingArgs) (h : PyHeap) (b : mating) :
      (mating.ctor a h).out = .ok b → Reachable (.mating b)
  | noMating_ctor (h : PyHeap) (s : Scheme) :
      (noMating.ctor h).out = .ok s → Reachable s
  | binomialSelection_ctor (a : MatingArgs) (h : PyHeap) (s : Scheme) :
      (binomialSelection.ctor a h).out = .ok s → Reachable s
  | randomMating_ctor (a : MatingArgs) (c : Bool) (h : PyHeap) (s : Scheme) :
      (randomMating.ctor a c h).out = .ok s → Reachable s
  | controlledMating_ctor (debug : Bool) (m : Scheme) (loci alleles : List Int) (f : PyPtr)
      (range : ℚ) (h : PyHeap) (s : Scheme) :
      Reachable m → (controlledMating.ctor debug m loci alleles f range h).out = .ok s →
      Reachable s
  | controlledBinomialSelection_ctor (loci alleles : List Int) (f : PyPtr) (a : MatingArgs)
      (h : PyHeap) (s : Scheme) :
      (controlledBinomialSelection.ctor loci alleles f a h).out = .ok s → Reachable s
  | controlledRandomMating_ctor (loci alleles : List Int) (f : PyPtr) (acc : Int)
      (a : MatingArgs) (c : Bool) (h : PyHeap) (s : Scheme) :
      (controlledRandomMating.ctor loci alleles f acc a c h).out = .ok s → Reachable s
  | pyMating_ctor (f : PyPtr) (size : List Nat) (expr : String) (sizeFunc : PyPtr)
      (h : PyHeap) (s : Scheme) :
      (pyMating.ctor f size expr sizeFunc h).out = .ok s → Reachable s
  | clone (s : Scheme) (h : PyHeap) (c : Scheme) :
      Reachable s → (s.clone h).out = .ok c → Reachable c
  | resetNumOffspring (s : Scheme) :
      Reachable s → Reachable (s.withBase mating.resetNumOffspring)
  | numOffspring (s : Scheme) (call : PyObj → Int → ℚ) (rng : RandomSource) (gen : Int) :
      Reachable s → Reachable (s.withBase fun b => (b.numOffspring call rng gen).2)
  | famSize (s : Scheme) (v : List Int) :
      Reachable s → Reachable (s.setFamSize v)
  | inner (b : mating) (m m1 : Scheme) (loci alleles : List Int) (f : PyPtr) (range : ℚ) :
      Reachable (.controlledMating b m loci alleles f range) → Reachable m1 →
      Reachable (.controlledMating b m1 loci alleles f range)

/-- The shape every existing scheme has: a controlled scheme stores a non-null
frequency callback, a `controlledMating` has the default configuration in its
base sub-object, and a `pyMating` stores a non-null function. -/
def Scheme.WF : Scheme → Prop
  | .controlledMating b m _ _ f _ =>
    b.config = (1, none, 0, MATE_NumOffspring, [], "", none) ∧ f ≠ none ∧ m.WF
  | .controlledBinomialSelection _ _ _ _ f => f ≠ none
  | .controlledRandomMating _ _ _ _ _ f => f ≠ none
  | .pyMating _ f => f ≠ none
  | _ => True

/-! ## Populations -/

inductive Sex where
  | Male | Female
  deriving DecidableEq, Repr

/-- Modelled from the spec: class `individual` is declared in population.h,
which is not among the sources. An individual carries its genotype, a sex
and an optional fitness. -/
structure individual where
  sex : Sex
  fitness : Option ℚ
  genotype : List Int
  deriving DecidableEq, Repr

/-- A value in the variable environment of a population. -/
inductive PyValue where
  | bool (b : Bool)
  | intVector (v : List Int)
  deriving DecidableEq, Repr

/-- Modelled from the spec: class `population` is declared in population.h,
which is not among the sources. A population has a ploidy, a generation
number, the current generation as an ordered collection of individuals
partitioned into subpopulations, and a variable environment. -/
structure population where
  ploidy : Nat
  gen : Int
  subPops : List (List individual)
  vars : List (String × PyValue)
  deriving DecidableEq, Repr

def population.numSubPop (pop : population) : Nat := pop.subPops.length

def population.subPopSizes (pop : population) : List Nat := pop.subPops.map List.length

def population.popSize (pop : population) : Nat := pop.subPopSizes.sum

/-- Reads a variable of the environment (the latest binding wins). -/
def population.getVar (pop : population) (name : String) : Option PyValue :=
  pop.vars.lookup name

/-- Modelled from the spec: `population::setBoolVar(name, value)`. -/
def population.setBoolVar (pop : population) (name : String) (value : Bool) : population :=
  { pop with vars := (name, .bool value) :: pop.vars }

/-- Modelled from the spec: `population::setIntVectorVar(name, value)`. -/
def population.setIntVectorVar (pop : population) (name : String) (value : List Int) :
    population :=
  { pop with vars := (name, .intVector value) :: pop.vars }

/-- Modelled from the spec: `population::pushAndDiscard(scratch)`, the atomic
commit: the generation of the scratch becomes the current generation, the
previous generation is discarded, and the scratch is left without
individuals. Returns the population and the scratch. -/
def population.pushAndDiscard (pop scratch : population) : population × population :=
  ({ pop with subPops := scratch.subPops }, { scratch with subPops := [] })

/-- Modelled from the spec: class `Operator` is declared in operator.h, which
is not among the sources. A during-mating operator says whether it forms
the offspring genotype and, applied to offspring, dad and mom, answers the
offspring it leaves or refuses it. -/
structure Operator where
  formOffGenotype : Bool
  applyDuringMating : individual → individual → individual → Option individual

/-- The body `submitScratch` has, word for word, in `binomialSelection`,
`randomMating`, `controlledBinomialSelection` and `controlledRandomMating`
(lines 357-363, 476-482, 716-722, 865-871). `DBG_DO(DBG_MATING, ...)` runs its
statement when the debugging code for mating is switched on, which is the
parameter `dbgMating`. Returns the population and the scratch. -/
def submitScratchBody (dbgMating : Bool) (m_famSize : List Int) (pop scratch : population) :
    population × population :=
  let pop1 := pop.setBoolVar "selection" false
  let r := pop1.pushAndDiscard scratch
  let pop2 := if dbgMating then r.1.setIntVectorVar "famSizes" m_famSize else r.1
  (pop2, r.2)

/-- Virtual `submitScratch(pop, scratch)`: empty in `mating` and `noMating`
(lines 198-200, 295-297), inherited from `mating` by `controlledMating` and
`pyMating`, and the commit in the other four classes. -/
def Scheme.submitScratch (dbgMating : Bool) : Scheme → population → population →
    population × population
  | .mating _, pop, scratch => (pop, scratch)
  | .noMating _, pop, scratch => (pop, scratch)
  | .binomialSelection _ fam, pop, scratch => submitScratchBody dbgMating fam pop scratch
  | .randomMating _ _ fam, pop, scratch => submitScratchBody dbgMating fam pop scratch
  | .controlledMating _ _ _ _ _ _, pop, scratch => (pop, scratch)
  | .controlledBinomialSelection _ fam _ _ _, pop, scratch =>
    submitScratchBody dbgMating fam pop scratch
  | .controlledRandomMating _ _ fam _ _ _, pop, scratch =>
    submitScratchBody dbgMating fam pop scratch
  | .pyMating _ _, pop, scratch => (pop, scratch)

/-- The body `isCompatible` has in `randomMating` and `controlledRandomMating`
(lines 456-468, 845-857): it reads the sex of the first individual, prints a
warning for a population that is not diploid unless the build is OPTIMIZED,
and returns true. Returns the answer and the lines printed. -/
def randomMating.isCompatible (optimized : Bool) (pop : population) : Bool × List String :=
  let out :=
    if !optimized && pop.ploidy != 2 then
      ["Warning: This mating type only works with diploid population."]
    else []
  (true, out)

/-- Virtual `isCompatible(pop)`: true in `mating` (lines 125-128) and the
classes that inherit it, the scheme it wraps for `controlledMating`
(lines 603-606). Returns the answer and the lines printed. -/
def Scheme.isCompatible (optimized : Bool) : Scheme → population → Bool × List String
  | .mating _, _ => (true, [])
  | .noMating _, _ => (true, [])
  | .binomialSelection _ _, _ => (true, [])
  | .randomMating _ _ _, pop => randomMating.isCompatible optimized pop
  | .controlledMating _ m _ _ _ _, pop => m.isCompatible optimized pop
  | .controlledBinomialSelection _ _ _ _ _, _ => (true, [])
  | .controlledRandomMating _ _ _ _ _ _, pop => randomMating.isCompatible optimized pop
  | .pyMating _ _, _ => (true, [])

/-- What a call of `mate` leaves: the value returned or the exception raised,
the population and the scratch. -/
structure MateResult where
  ret : Except Exn Bool
  pop : population
  scratch : population

/-- Base `mating::mate(pop, scratch, ops, submit)` (lines 209-212). -/
def mating.mate (_s : mating) (pop scratch : population) (_ops : List Operator)
    (_submit : Bool) : MateResult :=
  { ret := .error (.SystemError "You are not supposed to call base mating scheme.")
    pop := pop
    scratch := scratch }

/-- The capabilities the mating core is handed: the size callback, the
expression evaluator, and the filling of one subpopulation of the scratch
(parent draws, family sizes and the offspring generator) from the fathers
and mothers to draw from, the operators and the number of slots. -/
structure Host where
  callSizeFunc : PyObj → Int → List Nat → List Nat
  evalSizeExpr : String → List (String × PyValue) → List Nat
  fillSubPop : List individual → List individual → List Operator → Nat → List individual

/-- The sizes the resizer picks: callback, else expression, else fixed vector,
else the current sizes. -/
def mating.newSubPopSizes (s : mating) (host : Host) (pop : population) : List Nat :=
  match s.m_subPopSizeFunc with
  | some f => host.callSizeFunc f pop.gen pop.subPopSizes
  | none =>
    if s.m_subPopSizeExpr ≠ "" then host.evalSizeExpr s.m_subPopSizeExpr pop.vars
    else if s.m_subPopSize ≠ [] then s.m_subPopSize
    else pop.subPopSizes

/-- An empty slot of a scratch generation. -/
def individual.blank : individual := { sex := .Male, fitness := none, genotype := [] }

/-- Modelled from the spec: the body of `mating::prepareScratchPop(pop,
scratch)` is in mating.cpp, which is not among the sources. The resizer picks
the sizes by priority; their number must equal the current number of
subpopulations, otherwise it is a configuration error; it allocates the
scratch to the total and sets its subpopulation boundaries. -/
def mating.prepareScratchPop (s : mating) (host : Host) (pop scratch : population) :
    Except Exn population :=
  let sizes := s.newSubPopSizes host pop
  if sizes.length ≠ pop.numSubPop then
    .error (.ValueError "number of subpopulations must agree")
  else
    .ok { scratch with
          ploidy := pop.ploidy
          subPops := sizes.map fun n => List.replicate n individual.blank }

/-- The parent chooser and the filling of every subpopulation in turn: the
subpopulation is scanned once and split into males and females; with one
part empty the mating goes on with both parents from the other part when
`contWhenUniSex` is set (the warning it then prints is not modelled) and
fails otherwise. `none` is the failure. -/
def randomMating.fillSubPops (host : Host) (contWhenUniSex : Bool) (ops : List Operator) :
    List (List individual) → List Nat → Option (List (List individual))
  | [], _ => some []
  | sp :: rest, sizes =>
    let males := sp.filter fun i => decide (i.sex = .Male)
    let females := sp.filter fun i => decide (i.sex = .Female)
    if (males.isEmpty || females.isEmpty) && !contWhenUniSex then none
    else
      let dads := if males.isEmpty then females else males
      let moms := if females.isEmpty then males else females
      match randomMating.fillSubPops host contWhenUniSex ops rest sizes.tail with
      | none => none
      | some filled => some (host.fillSubPop dads moms ops sizes.headI :: filled)

/-- Modelled from the spec: the body of `randomMating::mate(pop, scratch, ops,
submit)` is in mating.cpp, which is not among the sources. The driver shapes
the scratch with the resizer, fills every subpopulation, and on success
commits when asked to; on a resizer error or a uni-sex subpopulation that
may not continue it returns false without committing. -/
def randomMating.mate (host : Host) (dbgMating : Bool) (base : mating)
    (m_contWhenUniSex : Bool) (m_famSize : List Int) (pop scratch : population)
    (ops : List Operator) (submit : Bool) : MateResult :=
  match base.prepareScratchPop host pop scratch with
  | .error _ => { ret := .ok false, pop := pop, scratch := scratch }
  | .ok scratch1 =>
    match randomMating.fillSubPops host m_contWhenUniSex ops pop.subPops
        scratch1.subPopSizes with
    | none => { ret := .ok false, pop := pop, scratch := scratch1 }
    | some filled =>
      let scratch2 := { scratch1 with subPops := filled }
      if submit then
        let r := submitScratchBody dbgMating m_famSize pop scratch2
        { ret := .ok true, pop := r.1, scratch := r.2 }
      else { ret := .ok true, pop := pop, scratch := scratch2 }

/-- The callback pointer a controlled scheme or a `pyMating` stores
(`m_freqFunc`, respectively `m_mateFunc`). -/
def Scheme.storedCallback : Scheme → Option PyPtr
  | .controlledMating _ _ _ _ f _ => some f
  | .controlledBinomialSelection _ _ _ _ f => some f
  | .controlledRandomMating _ _ _ _ _ f => some f
  | .pyMating _ f => some f
  | _ => none

/-- Any number of `clone()` calls in a row, each clone cloned in turn on the
heap of its moment; `none` when one of the calls does not return a scheme. -/
def Scheme.cloneChain : Scheme → List PyHeap → Option Scheme
  | s, [] => some s
  | s, h :: hs =>
    match (s.clone h).out with
    | .ok c => c.cloneChain hs
    | .error _ => none

/-! ## Predicates used by the proofs -/

/-- What a constructor call comes to: it raises `ValueError` and every
reference count is what it was, or it returns a well-formed scheme and every
object has gained one reference per pointer the scheme holds to it. -/
def CtorOutcome (h : PyHeap) (r : Res Scheme) : Prop :=
  (∃ msg, r.out = .error (.ValueError msg) ∧ ∀ x, r.heap.refcnt x = h.refcnt x) ∨
  (∃ s, r.out = .ok s ∧ s.WF ∧
    ∀ x, r.heap.refcnt x = h.refcnt x + (s.callbacks.count x : Int))

/-- The invariant of the world: every live scheme is well formed, and every
reference count is its initial value plus the references the live schemes
hold. -/
def World.Inv (h0 : PyHeap) (w : World) : Prop :=
  (∀ s ∈ w.live, s.WF) ∧ ∀ x, w.heap.refcnt x = h0.refcnt x + (holdings x w.live : Int)

/-! ## Concrete inputs -/

/-- A heap in which every object is callable and has one reference. -/
def heap0 : PyHeap := { refcnt := fun _ => 1, callable := fun _ => true }

/-- The base sub-object the default arguments give. -/
def base0 : mating :=
  { m_numOffspring := 1
    m_numOffspringFunc := none
    m_maxNumOffspring := 0
    m_mode := MATE_NumOffspring
    m_firstOffspring := true
    m_subPopSize := []
    m_subPopSizeExpr := ""
    m_subPopSizeFunc := none }

def aMale : individual := { sex := .Male, fitness := none, genotype := [0, 1] }

def aFemale : individual := { sex := .Female, fitness := none, genotype := [1, 1] }

/-- A haploid population of one subpopulation. -/
def haploidPop : population :=
  { ploidy := 1, gen := 0, subPops := [[aMale, aFemale]], vars := [] }

/-- A diploid population whose second subpopulation has males only. -/
def uniSexPop : population :=
  { ploidy := 2, gen := 0, subPops := [[aMale, aFemale], [aMale, aMale]],
    vars := [("selection", .bool true)] }

/-- A scratch population holding three individuals in two subpopulations. -/
def scratch0 : population :=
  { ploidy := 2, gen := 0, subPops := [[aFemale], [aMale, aFemale]], vars := [] }

/-- Arguments of a random mating with a family-size callback (object 3), a
size callback (object 4) and Poisson family sizes. -/
def args1 : MatingArgs :=
  { numOffspring := 2
    numOffspringFunc := some 3
    maxNumOffspring := 0
    mode := MATE_PoissonDistribution
    newSubPopSize := [10, 20]
    newSubPopSizeExpr := ""
    newSubPopSizeFunc := some 4 }

/-- The random mating `randomMating(args1, contWhenUniSex = false)` builds. -/
def rm1 : Scheme :=
  .randomMating
    { m_numOffspring := 2
      m_numOffspringFunc := some 3
      m_maxNumOffspring := 0
      m_mode := MATE_PoissonDistribution
      m_firstOffspring := true
      m_subPopSize := [10, 20]
      m_subPopSizeExpr := ""
      m_subPopSizeFunc := some 4 } false []

/-- The controller `controlledMating(rm1, [0], [1], freqFunc = object 5)`
builds. -/
def cm1 : Scheme := .controlledMating base0 rm1 [0] [1] (some 5) (1 / 100)

/-- The default arguments with the uniform family-size mode. -/
def argsUniformDefault : MatingArgs :=
  { numOffspring := 1
    numOffspringFunc := none
    maxNumOffspring := 0
    mode := MATE_UniformDistribution
    newSubPopSize := []
    newSubPopSizeExpr := ""
    newSubPopSizeFunc := none }

/-- A uniform family size between 2 and 5. -/
def argsUniform25 : MatingArgs :=
  { numOffspring := 2
    numOffspringFunc := none
    maxNumOffspring := 5
    mode := MATE_UniformDistribution
    newSubPopSize := []
    newSubPopSizeExpr := ""
    newSubPopSizeFunc := none }

/-- A random source whose samplers answer 1 and whose raw draw is 7. -/
def rng7 : RandomSource :=
  { randGeometric := fun _ => 1
    randPoisson := fun _ => 1
    randBinomial := fun _ _ => 1
    raw := 7 }

/-- A host whose size callback and expression keep the current sizes and
whose filling leaves blank individuals. -/
def host0 : Host :=
  { callSizeFunc := fun _ _ sizes => sizes
    evalSizeExpr := fun _ _ => []
    fillSubPop := fun _ _ _ n => List.replicate n individual.blank }

/-- The world a program has reached from the heap `h0`, with no scheme yet,
by the operations `ops`. -/
def World.reached (debug : Bool) (h0 : PyHeap) (ops : List Op) : World :=
  World.run debug { heap := h0, live := [] } ops

/-- Builds `rm1`, wraps it in a controller, clones the controller, and
destroys the three schemes. -/
def ops1 : List Op :=
  [.construct (.randomMating args1 false),
   .construct (.controlledMating 0 [0] [1] (some 5) (1 / 100)),
   .clone 1, .destroy 0, .destroy 0, .destroy 0]

/-- The base sub-object `mating(argsUniformDefault)` builds. -/
def baseUniformDefault : mating :=
  { m_numOffspring := 1
    m_numOffspringFunc := none
    m_maxNumOffspring := 0
    m_mode := MATE_UniformDistribution
    m_firstOffspring := true
    m_subPopSize := []
    m_subPopSizeExpr := ""
    m_subPopSizeFunc := none }

/-- The base sub-object `mating(argsUniform25)` builds. -/
def baseUniform25 : mating :=
  { m_numOffspring := 2
    m_numOffspringFunc := none
    m_maxNumOffspring := 5
    m_mode := MATE_UniformDistribution
    m_firstOffspring := true
    m_subPopSize := []
    m_subPopSizeExpr := ""
    m_subPopSizeFunc := none }

/-- A base sub-object configured with the fixed size vector `[10]`. -/
def baseFixed10 : mating :=
  { m_numOffspring := 1
    m_numOffspringFunc := none
    m_maxNumOffspring := 0
    m_mode := MATE_NumOffspring
    m_firstOffspring := true
    m_subPopSize := [10]
    m_subPopSizeExpr := ""
    m_subPopSizeFunc := none }

/-- A base sub-object configured with the fixed size vector `[3, 4]`. -/
def baseFixed34 : mating :=
  { m_numOffspring := 1
    m_numOffspringFunc := none
    m_maxNumOffspring := 0
    m_mode := MATE_NumOffspring
    m_firstOffspring := false
    m_subPopSize := [3, 4]
    m_subPopSizeExpr := ""
    m_subPopSizeFunc := none }

/-- Arguments of a base scheme that is given one Python function, object 3,
both as family-size callback and as size callback. -/
def argsAlias : MatingArgs :=
  { numOffspring := 1
    numOffspringFunc := some 3
    maxNumOffspring := 0
    mode := MATE_NumOffspring
    newSubPopSize := []
    newSubPopSizeExpr := ""
    newSubPopSizeFunc := some 3 }

/-- The base sub-object `mating(argsAlias)` builds. -/
def baseAlias : mating :=
  { m_numOffspring := 1
    m_numOffspringFunc := some 3
    m_maxNumOffspring := 0
    m_mode := MATE_NumOffspring
    m_firstOffspring := true
    m_subPopSize := []
    m_subPopSizeExpr := ""
    m_subPopSizeFunc := some 3 }

/-- Builds the base scheme of `argsAlias` and clones it. -/
def opsAlias : List Op :=
  [.construct (.mating argsAlias), .clone 0]

/-! ## Auxiliary lemmas -/

theorem Py_XINCREF_refcnt (p : PyPtr) (h : PyHeap) (x : PyObj) :
    (Py_XINCREF p h).refcnt x = h.refcnt x + (p.toList.count x : Int) := by
  cases p with
  | none => simp [Py_XINCREF]
  | some o =>
    by_cases hx : x = o
    · subst hx; simp [Py_XINCREF, Py_INCREF]
    · have : ¬ o = x := fun e => hx e.symm
      simp [Py_XINCREF, Py_INCREF, hx, List.count_cons, this]

theorem Py_XDECREF_refcnt (p : PyPtr) (h : PyHeap) (x : PyObj) :
    (Py_XDECREF p h).refcnt x = h.refcnt x - (p.toList.count x : Int) := by
  cases p with
  | none => simp [Py_XDECREF]
  | some o =>
    by_cases hx : x = o
    · subst hx; simp [Py_XDECREF, Py_DECREF]
    · have : ¬ o = x := fun e => hx e.symm
      simp [Py_XDECREF, Py_DECREF, hx, List.count_cons, this]

theorem Py_INCREF_refcnt (o : PyObj) (h : PyHeap) (x : PyObj) :
    (Py_INCREF o h).refcnt x = h.refcnt x + ((some o : PyPtr).toList.count x : Int) :=
  Py_XINCREF_refcnt (some o) h x

@[simp] theorem Py_XINCREF_callable (p : PyPtr) (h : PyHeap) :
    (Py_XINCREF p h).callable = h.callable := by
  cases p <;> rfl

@[simp] theorem Py_INCREF_callable (o : PyObj) (h : PyHeap) :
    (Py_INCREF o h).callable = h.callable := rfl

theorem mating_ctor_default (h : PyHeap) :
    mating.ctor MatingArgs.default h = ⟨.ok base0, h⟩ := by
  simp [mating.ctor, MatingArgs.default, base0, Py_XINCREF, MATE_NumOffspring,
    MATE_UniformDistribution]

/-- The constructor of the base sub-object either raises `ValueError` and
leaves the heap alone, or stores its arguments and acquires its callbacks. -/
theorem mating_ctor_cases (a : MatingArgs) (h : PyHeap) :
    (∃ msg, mating.ctor a h = ⟨.error (.ValueError msg), h⟩) ∨
    (∃ b, mating.ctor a h =
        ⟨.ok b, Py_XINCREF a.newSubPopSizeFunc (Py_XINCREF a.numOffspringFunc h)⟩ ∧
      b.config = (a.numOffspring, a.numOffspringFunc, a.maxNumOffspring, a.mode,
        a.newSubPopSize, a.newSubPopSizeExpr, a.newSubPopSizeFunc) ∧
      b.m_firstOffspring = true) := by
  unfold mating.ctor
  split_ifs
  · exact Or.inl ⟨_, rfl⟩
  · exact Or.inl ⟨_, rfl⟩
  · exact Or.inl ⟨_, rfl⟩
  · exact Or.inr ⟨_, rfl, rfl, rfl⟩

theorem mating_callbacks_of_config (b : mating) (q : ℚ) (f : PyPtr) (n k : Nat) (v : List Nat)
    (e : String) (g : PyPtr) (hb : b.config = (q, f, n, k, v, e, g)) :
    b.callbacks = g.toList ++ f.toList := by
  simp only [mating.config, Prod.mk.injEq] at hb
  obtain ⟨-, h2, -, -, -, -, h7⟩ := hb
  simp [mating.callbacks, h2, h7]

theorem mating_ctor_refcnt (a : MatingArgs) (h h1 : PyHeap) (b : mating)
    (hc : mating.ctor a h = ⟨.ok b, h1⟩) (x : PyObj) :
    h1.refcnt x = h.refcnt x + (b.callbacks.count x : Int) := by
  rcases mating_ctor_cases a h with ⟨msg, hm⟩ | ⟨b1, hm, hcfg, -⟩
  · rw [hm] at hc; simp at hc
  · rw [hm] at hc
    simp only [Res.mk.injEq, Except.ok.injEq] at hc
    obtain ⟨rfl, rfl⟩ := hc
    rw [mating_callbacks_of_config _ _ _ _ _ _ _ _ hcfg, Py_XINCREF_refcnt, Py_XINCREF_refcnt]
    simp only [List.count_append, Nat.cast_add]; ring

theorem mating_copy_callbacks (b : mating) (h : PyHeap) :
    (b.copy h).1.callbacks = b.callbacks := rfl

theorem mating_copy_refcnt (b : mating) (h : PyHeap) (x : PyObj) :
    (b.copy h).2.refcnt x = h.refcnt x + (b.callbacks.count x : Int) := by
  simp only [mating.copy, mating.callbacks, Py_XINCREF_refcnt, List.count_append, Nat.cast_add]
  ring

theorem mating_dtor_refcnt (b : mating) (h : PyHeap) (x : PyObj) :
    (b.dtor h).refcnt x = h.refcnt x - (b.callbacks.count x : Int) := by
  simp only [mating.dtor, mating.callbacks, Py_XDECREF_refcnt, List.count_append, Nat.cast_add]
  ring

/-- Cloning a well-formed scheme returns a scheme of the same class with the
same configuration, control spec and callbacks, and adds to every object one
reference per pointer the clone holds to it. -/
theorem clone_spec (s : Scheme) : ∀ h : PyHeap, s.WF →
    ∃ c h1, s.clone h = ⟨.ok c, h1⟩ ∧ c.variant = s.variant ∧
      c.base.config = s.base.config ∧ c.controlSpec = s.controlSpec ∧
      c.callbacks = s.callbacks ∧ c.WF ∧
      ∀ x, h1.refcnt x = h.refcnt x + (c.callbacks.count x : Int) := by
  induction s with
  | mating b =>
    intro h _
    exact ⟨_, _, rfl, rfl, rfl, rfl, rfl, trivial, fun x => mating_copy_refcnt b h x⟩
  | noMating b =>
    intro h _
    exact ⟨_, _, rfl, rfl, rfl, rfl, rfl, trivial, fun x => mating_copy_refcnt b h x⟩
  | binomialSelection b fam =>
    intro h _
    exact ⟨_, _, rfl, rfl, rfl, rfl, rfl, trivial, fun x => mating_copy_refcnt b h x⟩
  | randomMating b c fam =>
    intro h _
    exact ⟨_, _, rfl, rfl, rfl, rfl, rfl, trivial, fun x => mating_copy_refcnt b h x⟩
  | controlledMating b m loci alleles f range ih =>
    intro h hwf
    obtain ⟨hb, hf, hm⟩ := hwf
    obtain ⟨g, rfl⟩ := Option.ne_none_iff_exists'.mp hf
    obtain ⟨c, h1, hcl, hv, hcfg, hcs, hcb, hcwf, hrc⟩ := ih (Py_INCREF g h) hm
    refine ⟨.controlledMating base0 c loci alleles (some g) range, h1, ?_, rfl, ?_, rfl, ?_,
      ⟨rfl, by simp, hcwf⟩, ?_⟩
    · simp [Scheme.clone, mating_ctor_default, hcl]
    · simpa [Scheme.base] using hb.symm
    · simp [Scheme.callbacks, hcb, mating_callbacks_of_config _ _ _ _ _ _ _ _ hb]
      rfl
    · intro x
      have e : (Scheme.controlledMating base0 c loci alleles (some g) range).callbacks =
          (some g : PyPtr).toList ++ c.callbacks := by
        simp [Scheme.callbacks, mating.callbacks, base0]
      rw [hrc x, Py_INCREF_refcnt, e, List.count_append]
      push_cast; ring
  | controlledBinomialSelection b fam loci alleles f =>
    intro h hwf
    obtain ⟨g, rfl⟩ := Option.ne_none_iff_exists'.mp hwf
    refine ⟨_, _, rfl, rfl, rfl, rfl, rfl, by simp [Scheme.WF], ?_⟩
    intro x
    rw [Py_INCREF_refcnt, mating_copy_refcnt]
    simp only [Scheme.callbacks, mating_copy_callbacks, List.count_append, Nat.cast_add]
    ring
  | controlledRandomMating b c fam loci alleles f =>
    intro h hwf
    obtain ⟨g, rfl⟩ := Option.ne_none_iff_exists'.mp hwf
    refine ⟨_, _, rfl, rfl, rfl, rfl, rfl, by simp [Scheme.WF], ?_⟩
    intro x
    rw [Py_INCREF_refcnt, mating_copy_refcnt]
    simp only [Scheme.callbacks, mating_copy_callbacks, List.count_append, Nat.cast_add]
    ring
  | pyMating b f =>
    intro h hwf
    refine ⟨_, _, rfl, rfl, rfl, rfl, rfl, hwf, ?_⟩
    intro x
    rw [Py_XINCREF_refcnt, mating_copy_refcnt]
    simp only [Scheme.callbacks, mating_copy_callbacks, List.count_append, Nat.cast_add]
    ring

/-- Destroying a scheme removes from every object one reference per pointer
the scheme holds to it. -/
theorem destroy_refcnt (s : Scheme) : ∀ (h : PyHeap) (x : PyObj),
    (s.destroy h).refcnt x = h.refcnt x - (s.callbacks.count x : Int) := by
  induction s with
  | mating b => intro h x; exact mating_dtor_refcnt b h x
  | noMating b => intro h x; exact mating_dtor_refcnt b h x
  | binomialSelection b fam => intro h x; exact mating_dtor_refcnt b h x
  | randomMating b c fam => intro h x; exact mating_dtor_refcnt b h x
  | controlledMating b m loci alleles f range ih =>
    intro h x
    simp only [Scheme.destroy, Scheme.callbacks, mating_dtor_refcnt, ih, Py_XDECREF_refcnt,
      List.count_append, Nat.cast_add]
    ring
  | controlledBinomialSelection b fam loci alleles f =>
    intro h x
    simp only [Scheme.destroy, Scheme.callbacks, mating_dtor_refcnt, Py_XDECREF_refcnt,
      List.count_append, Nat.cast_add]
    ring
  | controlledRandomMating b c fam loci alleles f =>
    intro h x
    simp only [Scheme.destroy, Scheme.callbacks, mating_dtor_refcnt, Py_XDECREF_refcnt,
      List.count_append, Nat.cast_add]
    ring
  | pyMating b f =>
    intro h x
    simp only [Scheme.destroy, Scheme.callbacks, mating_dtor_refcnt, Py_XDECREF_refcnt,
      List.count_append, Nat.cast_add]
    ring

/-- Unwinding the base sub-object right after it was built restores the
reference counts. -/
theorem mating_ctor_unwind (a : MatingArgs) (h h1 : PyHeap) (b : mating)
    (hc : mating.ctor a h = ⟨.ok b, h1⟩) (x : PyObj) :
    (b.dtor h1).refcnt x = h.refcnt x := by
  rw [mating_dtor_refcnt, mating_ctor_refcnt a h h1 b hc]; ring

theorem base_ctor_outcome (a : MatingArgs) (h : PyHeap) (mk : mating → Scheme)
    (hmk : ∀ b, (mk b).callbacks = b.callbacks ∧ (mk b).WF) :
    CtorOutcome h (match mating.ctor a h with
      | ⟨.ok b, h1⟩ => ⟨.ok (mk b), h1⟩
      | ⟨.error e, h1⟩ => ⟨.error e, h1⟩) := by
  rcases mating_ctor_cases a h with ⟨msg, hm⟩ | ⟨b, hm, -, -⟩
  · rw [hm]; exact Or.inl ⟨msg, rfl, fun _ => rfl⟩
  · rw [hm]
    refine Or.inr ⟨mk b, rfl, (hmk b).2, fun x => ?_⟩
    rw [(hmk b).1]
    exact mating_ctor_refcnt a h _ b hm x

theorem noMating_ctor_outcome (h : PyHeap) : CtorOutcome h (noMating.ctor h) :=
  base_ctor_outcome ⟨1, none, 0, MATE_NumOffspring, [], "", none⟩ h Scheme.noMating fun _ => ⟨rfl, trivial⟩

theorem binomialSelection_ctor_outcome (a : MatingArgs) (h : PyHeap) :
    CtorOutcome h (binomialSelection.ctor a h) :=
  base_ctor_outcome a h (fun b => Scheme.binomialSelection b []) fun _ => ⟨rfl, trivial⟩

theorem randomMating_ctor_outcome (a : MatingArgs) (c : Bool) (h : PyHeap) :
    CtorOutcome h (randomMating.ctor a c h) :=
  base_ctor_outcome a h (fun b => Scheme.randomMating b c []) fun _ => ⟨rfl, trivial⟩

theorem controlledBinomialSelection_ctor_outcome (loci alleles : List Int) (f : PyPtr)
    (a : MatingArgs) (h : PyHeap) :
    CtorOutcome h (controlledBinomialSelection.ctor loci alleles f a h) := by
  unfold controlledBinomialSelection.ctor
  rcases mating_ctor_cases a h with ⟨msg, hm⟩ | ⟨b, hm, -, -⟩
  · rw [hm]; exact Or.inl ⟨msg, rfl, fun _ => rfl⟩
  · rw [hm]
    have hu := mating_ctor_unwind a h _ b hm
    have hr := mating_ctor_refcnt a h _ b hm
    dsimp only
    split_ifs with h1
    · exact Or.inl ⟨_, rfl, hu⟩
    · cases f with
      | none => exact Or.inl ⟨_, rfl, hu⟩
      | some g =>
        dsimp only
        split_ifs with h2
        · exact Or.inl ⟨_, rfl, hu⟩
        · refine Or.inr ⟨_, rfl, by simp [Scheme.WF], fun x => ?_⟩
          rw [Py_INCREF_refcnt, hr x]
          simp only [Scheme.callbacks, List.count_append, Nat.cast_add]
          ring

theorem controlledRandomMating_ctor_outcome (loci alleles : List Int) (f : PyPtr) (acc : Int)
    (a : MatingArgs) (c : Bool) (h : PyHeap) :
    CtorOutcome h (controlledRandomMating.ctor loci alleles f acc a c h) := by
  unfold controlledRandomMating.ctor
  rcases mating_ctor_cases a h with ⟨msg, hm⟩ | ⟨b, hm, -, -⟩
  · rw [hm]; exact Or.inl ⟨msg, rfl, fun _ => rfl⟩
  · rw [hm]
    have hu := mating_ctor_unwind a h _ b hm
    have hr := mating_ctor_refcnt a h _ b hm
    cases f with
    | none => exact Or.inl ⟨_, rfl, hu⟩
    | some g =>
      dsimp only
      split_ifs with h2
      · exact Or.inl ⟨_, rfl, hu⟩
      · refine Or.inr ⟨_, rfl, by simp [Scheme.WF], fun x => ?_⟩
        rw [Py_INCREF_refcnt, hr x]
        simp only [Scheme.callbacks, List.count_append, Nat.cast_add]
        ring

theorem pyMating_ctor_outcome (f : PyPtr) (size : List Nat) (expr : String) (sizeFunc : PyPtr)
    (h : PyHeap) : CtorOutcome h (pyMating.ctor f size expr sizeFunc h) := by
  unfold pyMating.ctor
  rcases mating_ctor_cases ⟨1, none, 0, MATE_NumOffspring, size, expr, sizeFunc⟩ h with
    ⟨msg, hm⟩ | ⟨b, hm, -, -⟩
  · rw [hm]; exact Or.inl ⟨msg, rfl, fun _ => rfl⟩
  · rw [hm]
    have hu := mating_ctor_unwind _ h _ b hm
    have hr := mating_ctor_refcnt _ h _ b hm
    dsimp only
    split_ifs with h2
    · exact Or.inl ⟨_, rfl, hu⟩
    · refine Or.inr ⟨_, rfl, ?_, fun x => ?_⟩
      · cases f with
        | none => simp [PyCallable_Check] at h2
        | some g => simp [Scheme.WF]
      · rw [Py_XINCREF_refcnt, hr x]
        simp only [Scheme.callbacks, List.count_append, Nat.cast_add]
        ring

theorem controlledMating_ctor_outcome (debug : Bool) (m : Scheme) (loci alleles : List Int)
    (f : PyPtr) (range : ℚ) (h : PyHeap) (hm : m.WF) :
    CtorOutcome h (controlledMating.ctor debug m loci alleles f range h) := by
  unfold controlledMating.ctor
  rw [mating_ctor_default]
  dsimp only
  split_ifs with h1 h2 h3
  · exact Or.inl ⟨_, rfl, fun _ => rfl⟩
  · exact Or.inl ⟨_, rfl, fun _ => rfl⟩
  · exact Or.inl ⟨_, rfl, fun _ => rfl⟩
  · cases f with
    | none => exact Or.inl ⟨_, rfl, fun _ => rfl⟩
    | some g =>
      dsimp only
      split_ifs with h4
      · exact Or.inl ⟨_, rfl, fun _ => rfl⟩
      · obtain ⟨c, h5, hcl, -, -, -, -, hcwf, hrc⟩ := clone_spec m (Py_INCREF g h) hm
        rw [hcl]
        refine Or.inr ⟨_, rfl, ⟨rfl, by simp, hcwf⟩, fun x => ?_⟩
        · have e : (Scheme.controlledMating base0 c loci alleles (some g) range).callbacks =
              (some g : PyPtr).toList ++ c.callbacks := by
            simp [Scheme.callbacks, mating.callbacks, base0]
          dsimp only
          rw [hrc x, Py_INCREF_refcnt, e, List.count_append]
          push_cast; ring

theorem CtorOutcome.of_ok {h : PyHeap} {r : Res Scheme} {s : Scheme} (ho : CtorOutcome h r)
    (hs : r.out = .ok s) :
    s.WF ∧ ∀ x, r.heap.refcnt x = h.refcnt x + (s.callbacks.count x : Int) := by
  rcases ho with ⟨msg, hm, -⟩ | ⟨s1, hs1, hwf, hr⟩
  · rw [hm] at hs; cases hs
  · rw [hs1] at hs
    cases hs
    exact ⟨hwf, hr⟩

theorem CtorOutcome.of_error {h : PyHeap} {r : Res Scheme} {e : Exn} (ho : CtorOutcome h r)
    (hs : r.out = .error e) :
    (∃ msg, e = .ValueError msg) ∧ ∀ x, r.heap.refcnt x = h.refcnt x := by
  rcases ho with ⟨msg, hm, hr⟩ | ⟨s1, hs1, -, -⟩
  · rw [hm] at hs
    cases hs
    exact ⟨⟨msg, rfl⟩, hr⟩
  · rw [hs1] at hs; cases hs

theorem numOffspring_of_default (b : mating)
    (hb : b.config = (1, none, 0, MATE_NumOffspring, [], "", none))
    (call : PyObj → Int → ℚ) (rng : RandomSource) (gen : Int) :
    (b.numOffspring call rng gen).2 = b := by
  simp only [mating.config, Prod.mk.injEq] at hb
  obtain ⟨-, h2, -, h4, -, -, -⟩ := hb
  simp [mating.numOffspring, h2, h4]

theorem WF_withBase (f : mating → mating)
    (hf : ∀ b, b.config = (1, none, 0, MATE_NumOffspring, [], "", none) → (f b).config = b.config)
    (s : Scheme) (hs : s.WF) : (s.withBase f).WF := by
  cases s with
  | controlledMating b m loci alleles g range =>
    obtain ⟨hb, hg, hm⟩ := hs
    exact ⟨(hf b hb).trans hb, hg, hm⟩
  | mating b => trivial
  | noMating b => trivial
  | binomialSelection b fam => trivial
  | randomMating b c fam => trivial
  | controlledBinomialSelection b fam loci alleles g => exact hs
  | controlledRandomMating b c fam loci alleles g => exact hs
  | pyMating b g => exact hs

theorem WF_setFamSize (v : List Int) (s : Scheme) (hs : s.WF) : (s.setFamSize v).WF := by
  cases s <;> exact hs

/-- Every scheme object that exists is well formed. -/
theorem Reachable.wf {s : Scheme} (hs : Reachable s) : s.WF := by
  induction hs with
  | mating_ctor a h b _ => trivial
  | noMating_ctor h s hc => exact ((noMating_ctor_outcome h).of_ok hc).1
  | binomialSelection_ctor a h s hc => exact ((binomialSelection_ctor_outcome a h).of_ok hc).1
  | randomMating_ctor a c h s hc => exact ((randomMating_ctor_outcome a c h).of_ok hc).1
  | controlledMating_ctor debug m loci alleles f range h s _ hc ih =>
    exact ((controlledMating_ctor_outcome debug m loci alleles f range h ih).of_ok hc).1
  | controlledBinomialSelection_ctor loci alleles f a h s hc =>
    exact ((controlledBinomialSelection_ctor_outcome loci alleles f a h).of_ok hc).1
  | controlledRandomMating_ctor loci alleles f acc a c h s hc =>
    exact ((controlledRandomMating_ctor_outcome loci alleles f acc a c h).of_ok hc).1
  | pyMating_ctor f size expr sizeFunc h s hc =>
    exact ((pyMating_ctor_outcome f size expr sizeFunc h).of_ok hc).1
  | clone s h c _ hc ih =>
    obtain ⟨c1, h1, hcl, -, -, -, -, hwf, -⟩ := clone_spec s h ih
    rw [hcl] at hc
    cases hc
    exact hwf
  | resetNumOffspring s _ ih => exact WF_withBase mating.resetNumOffspring (fun _ _ => rfl) s ih
  | numOffspring s call rng gen _ ih =>
    exact WF_withBase _ (fun b hb => by rw [numOffspring_of_default b hb]) s ih
  | famSize s v _ ih => exact WF_setFamSize v s ih
  | inner b m m1 loci alleles f range _ _ ih ih1 => exact ⟨ih.1, ih.2.1, ih1⟩

theorem holdings_append (x : PyObj) (live : List Scheme) (s : Scheme) :
    holdings x (live ++ [s]) = holdings x live + s.callbacks.count x := by
  simp [holdings]

theorem holdings_eraseIdx (x : PyObj) : ∀ (live : List Scheme) (i : Nat) (s : Scheme),
    live[i]? = some s →
    holdings x live = holdings x (live.eraseIdx i) + s.callbacks.count x := by
  intro live
  induction live with
  | nil => intro i s h; simp at h
  | cons a l ih =>
    intro i s h
    cases i with
    | zero =>
      simp at h
      subst h
      simp [holdings, Nat.add_comm]
    | succ j =>
      simp at h
      have := ih j s h
      simp only [holdings, List.map_cons, List.sum_cons, List.eraseIdx_cons_succ] at this ⊢
      omega

theorem mem_eraseIdx_mem (l : List Scheme) (i : Nat) (s : Scheme) (h : s ∈ l.eraseIdx i) :
    s ∈ l := by
  exact (List.eraseIdx_sublist l i).subset h

theorem CtorCall.run_outcome (debug : Bool) (live : List Scheme) (h : PyHeap)
    (hl : ∀ s ∈ live, s.WF) (c : CtorCall) (r : Res Scheme)
    (hr : c.run debug live h = some r) : CtorOutcome h r := by
  cases c with
  | mating a =>
    have ho := base_ctor_outcome a h Scheme.mating fun _ => ⟨rfl, trivial⟩
    rcases mating_ctor_cases a h with ⟨msg, hm⟩ | ⟨b, hm, -, -⟩ <;>
      · simp only [CtorCall.run, hm, Option.some.injEq] at hr
        rw [hm] at ho
        rw [← hr]; exact ho
  | noMating =>
    simp only [CtorCall.run, Option.some.injEq] at hr
    rw [← hr]; exact noMating_ctor_outcome h
  | binomialSelection a =>
    simp only [CtorCall.run, Option.some.injEq] at hr
    rw [← hr]; exact binomialSelection_ctor_outcome a h
  | randomMating a c =>
    simp only [CtorCall.run, Option.some.injEq] at hr
    rw [← hr]; exact randomMating_ctor_outcome a c h
  | controlledMating i loci alleles f range =>
    simp only [CtorCall.run] at hr
    cases hi : live[i]? with
    | none => rw [hi] at hr; cases hr
    | some m =>
      rw [hi] at hr
      simp only [Option.some.injEq] at hr
      rw [← hr]
      exact controlledMating_ctor_outcome debug m loci alleles f range h
        (hl m (List.getElem?_mem hi))
  | controlledBinomialSelection loci alleles f a =>
    simp only [CtorCall.run, Option.some.injEq] at hr
    rw [← hr]; exact controlledBinomialSelection_ctor_outcome loci alleles f a h
  | controlledRandomMating loci alleles f acc a c =>
    simp only [CtorCall.run, Option.some.injEq] at hr
    rw [← hr]; exact controlledRandomMating_ctor_outcome loci alleles f acc a c h
  | pyMating f size expr sizeFunc =>
    simp only [CtorCall.run, Option.some.injEq] at hr
    rw [← hr]; exact pyMating_ctor_outcome f size expr sizeFunc h

theorem World.Inv.record {h0 : PyHeap} {w : World} (hw : w.Inv h0) (r : Res Scheme)
    (hr : CtorOutcome w.heap r) : (w.record r).Inv h0 := by
  rcases hr with ⟨msg, hm, hx⟩ | ⟨s, hs, hwf, hx⟩
  · simp only [World.record, hm]
    exact ⟨hw.1, fun x => by rw [hx x, hw.2 x]⟩
  · simp only [World.record, hs]
    refine ⟨?_, fun x => ?_⟩
    · intro t ht
      rcases List.mem_append.mp ht with ht | ht
      · exact hw.1 t ht
      · simp at ht; subst ht; exact hwf
    · rw [hx x, hw.2 x, holdings_append]; push_cast; ring

theorem World.Inv.step {h0 : PyHeap} {w : World} (debug : Bool) (hw : w.Inv h0) (op : Op) :
    (w.step debug op).Inv h0 := by
  cases op with
  | construct c =>
    simp only [World.step]
    cases hc : c.run debug w.live w.heap with
    | none => exact hw
    | some r => exact hw.record r (CtorCall.run_outcome debug w.live w.heap hw.1 c r hc)
  | clone i =>
    simp only [World.step]
    cases hi : w.live[i]? with
    | none => exact hw
    | some s =>
      obtain ⟨c, h1, hcl, -, -, -, -, hwf, hrc⟩ :=
        clone_spec s w.heap (hw.1 s (List.getElem?_mem hi))
      refine hw.record _ (Or.inr ⟨c, ?_, hwf, ?_⟩)
      · rw [hcl]
      · rw [hcl]; exact hrc
  | destroy i =>
    simp only [World.step]
    cases hi : w.live[i]? with
    | none => exact hw
    | some s =>
      refine ⟨fun t ht => hw.1 t (mem_eraseIdx_mem _ _ _ ht), fun x => ?_⟩
      dsimp only
      rw [destroy_refcnt, hw.2 x, holdings_eraseIdx x w.live i s hi]
      push_cast; ring

theorem World.Inv.run {h0 : PyHeap} (debug : Bool) (ops : List Op) :
    ∀ {w : World}, w.Inv h0 → (w.run debug ops).Inv h0 := by
  induction ops with
  | nil => intro w hw; exact hw
  | cons op rest ih => intro w hw; exact ih (hw.step debug op)

theorem World.Inv.init (h0 : PyHeap) : World.Inv h0 ⟨h0, []⟩ :=
  ⟨fun _ h => by simp at h, fun x => by simp [holdings]⟩

theorem holdings_eq_holders (x : PyObj) (live : List Scheme)
    (hn : ∀ s ∈ live, s.callbacks.Nodup) : holdings x live = holders x live := by
  induction live with
  | nil => rfl
  | cons a l ih =>
    have ih1 := ih fun s hs => hn s (List.mem_cons_of_mem _ hs)
    have ha := hn a (List.mem_cons_self _ _)
    simp only [holdings, holders, List.map_cons, List.sum_cons] at ih1 ⊢
    by_cases hx : x ∈ a.callbacks
    · rw [List.filter_cons_of_pos (by simpa using hx), List.length_cons, ih1,
        List.count_eq_one_of_mem ha hx]
      omega
    · rw [List.filter_cons_of_neg (by simpa using hx), ih1, List.count_eq_zero_of_not_mem hx]
      omega

theorem rm1_reachable : Reachable rm1 :=
  Reachable.randomMating_ctor args1 false heap0 rm1 rfl

theorem cm1_reachable : Reachable cm1 :=
  Reachable.controlledMating_ctor false rm1 [0] [1] (some 5) (1 / 100) heap0 cm1
    rm1_reachable rfl

/-- A clone answers the compatibility check as its original does. -/
theorem clone_isCompatible (s : Scheme) : ∀ (h : PyHeap) (c : Scheme),
    (s.clone h).out = .ok c → ∀ (optimized : Bool) (pop : population),
      c.isCompatible optimized pop = s.isCompatible optimized pop := by
  induction s with
  | mating b => intro h c hc o pop; cases hc; rfl
  | noMating b => intro h c hc o pop; cases hc; rfl
  | binomialSelection b fam => intro h c hc o pop; cases hc; rfl
  | randomMating b cont fam => intro h c hc o pop; cases hc; rfl
  | controlledMating b m loci alleles f range ih =>
    intro h c hc o pop
    unfold Scheme.clone at hc
    rw [mating_ctor_default] at hc
    cases f with
    | none => cases hc
    | some g =>
      dsimp only at hc
      rcases hcl : m.clone (Py_INCREF g h) with ⟨out, hp⟩
      rw [hcl] at hc
      cases out with
      | error e => cases hc
      | ok m1 =>
        simp only [Except.ok.injEq] at hc
        rw [← hc]
        exact ih (Py_INCREF g h) m1 (by rw [hcl]) o pop
  | controlledBinomialSelection b fam loci alleles f =>
    intro h c hc o pop
    cases f with
    | none => cases hc
    | some g => cases hc; rfl
  | controlledRandomMating b cont fam loci alleles f =>
    intro h c hc o pop
    cases f with
    | none => cases hc
    | some g => cases hc; rfl
  | pyMating b f => intro h c hc o pop; cases hc; rfl

theorem cloneChain_isCompatible : ∀ (hs : List PyHeap) (s c : Scheme),
    s.cloneChain hs = some c → ∀ (optimized : Bool) (pop : population),
      c.isCompatible optimized pop = s.isCompatible optimized pop := by
  intro hs
  induction hs with
  | nil =>
    intro s c hc o pop
    simp only [Scheme.cloneChain, Option.some.injEq] at hc
    rw [hc]
  | cons h rest ih =>
    intro s c hc o pop
    simp only [Scheme.cloneChain] at hc
    cases hcl : (s.clone h).out with
    | error e => rw [hcl] at hc; cases hc
    | ok c1 =>
      rw [hcl] at hc
      rw [ih c1 c hc o pop, clone_isCompatible s h c1 hcl o pop]

theorem cloneChain_reachable : ∀ (hs : List PyHeap) (s c : Scheme),
    Reachable s → s.cloneChain hs = some c → Reachable c := by
  intro hs
  induction hs with
  | nil =>
    intro s c hr hc
    simp only [Scheme.cloneChain, Option.some.injEq] at hc
    rw [← hc]; exact hr
  | cons h rest ih =>
    intro s c hr hc
    simp only [Scheme.cloneChain] at hc
    cases hcl : (s.clone h).out with
    | error e => rw [hcl] at hc; cases hc
    | ok c1 =>
      rw [hcl] at hc
      exact ih c1 c (Reachable.clone s h c1 hr hcl) hc

theorem WF_storedCallback (s : Scheme) (hs : s.WF) (p : PyPtr)
    (hp : s.storedCallback = some p) : p ≠ none := by
  cases s with
  | controlledMating b m loci alleles f range =>
    simp only [Scheme.storedCallback, Option.some.injEq] at hp
    rw [← hp]; exact hs.2.1
  | controlledBinomialSelection b fam loci alleles f =>
    simp only [Scheme.storedCallback, Option.some.injEq] at hp
    rw [← hp]; exact hs
  | controlledRandomMating b c fam loci alleles f =>
    simp only [Scheme.storedCallback, Option.some.injEq] at hp
    rw [← hp]; exact hs
  | pyMating b f =>
    simp only [Scheme.storedCallback, Option.some.injEq] at hp
    rw [← hp]; exact hs
  | mating b => cases hp
  | noMating b => cases hp
  | binomialSelection b fam => cases hp
  | randomMating b c fam => cases hp

/-- What a `controlledMating` constructor that returned has built: the base
sub-object of the default arguments, a clone of the scheme to wrap, and the
control spec as given, around a non-null frequency callback. -/
theorem controlledMating_ctor_ok (debug : Bool) (m : Scheme) (loci alleles : List Int)
    (f : PyPtr) (range : ℚ) (h : PyHeap) (s : Scheme)
    (hc : (controlledMating.ctor debug m loci alleles f range h).out = .ok s) :
    ∃ g m1 hp, f = some g ∧ m.clone (Py_INCREF g h) = ⟨.ok m1, hp⟩ ∧
      s = .controlledMating base0 m1 loci alleles (some g) range := by
  revert hc
  unfold controlledMating.ctor
  rw [mating_ctor_default]
  dsimp only
  split_ifs
  · intro hs; cases hs
  · intro hs; cases hs
  · intro hs; cases hs
  · cases f with
    | none => intro hs; cases hs
    | some g =>
      dsimp only
      split_ifs
      · intro hs; cases hs
      · rcases hcl : m.clone (Py_INCREF g h) with ⟨out, hp⟩
        cases out with
        | error e => intro hs; cases hs
        | ok m1 =>
          intro hs
          simp only [Except.ok.injEq] at hs
          exact ⟨g, m1, hp, rfl, hcl, hs.symm⟩

/-! ## Properties of the mating schemes -/

/-- C2: for a scheme of class `binomialSelection`, `randomMating`,
`controlledBinomialSelection` or `controlledRandomMating`, after
`submitScratch(pop, scratch)` the variable `selection` of the population is
false, the current generation of the population is the generation the
scratch held before the call, and so the population has the size the scratch
had. -/
theorem submitScratch_commits (dbgMating : Bool) (s : Scheme) (pop scratch : population)
    (hs : s.variant = .binomialSelection ∨ s.variant = .randomMating ∨
      s.variant = .controlledBinomialSelection ∨ s.variant = .controlledRandomMating) :
    (s.submitScratch dbgMating pop scratch).1.getVar "selection" = some (.bool false) ∧
    (s.submitScratch dbgMating pop scratch).1.subPops = scratch.subPops ∧
    (s.submitScratch dbgMating pop scratch).1.popSize = scratch.popSize := by
  have key : ∀ v : List Int,
      (submitScratchBody dbgMating v pop scratch).1.getVar "selection" = some (.bool false) ∧
      (submitScratchBody dbgMating v pop scratch).1.subPops = scratch.subPops ∧
      (submitScratchBody dbgMating v pop scratch).1.popSize = scratch.popSize := by
    intro v
    cases dbgMating <;>
      simp [submitScratchBody, population.pushAndDiscard, population.setBoolVar,
        population.setIntVectorVar, population.getVar, population.popSize,
        population.subPopSizes, List.lookup]
  cases s with
  | binomialSelection b fam => exact key fam
  | randomMating b c fam => exact key fam
  | controlledBinomialSelection b fam loci alleles f => exact key fam
  | controlledRandomMating b c fam loci alleles f => exact key fam
  | mating b => simp [Scheme.variant] at hs
  | noMating b => simp [Scheme.variant] at hs
  | controlledMating b m loci alleles f range => simp [Scheme.variant] at hs
  | pyMating b f => simp [Scheme.variant] at hs

/-- C2 at the random mating `rm1`, a population whose `selection` is true and
a scratch of three individuals. -/
theorem submitScratch_commits_witness :
    rm1.variant = .randomMating ∧
    (rm1.submitScratch true uniSexPop scratch0).1.getVar "selection" = some (.bool false) ∧
    (rm1.submitScratch true uniSexPop scratch0).1.subPops = scratch0.subPops ∧
    (rm1.submitScratch true uniSexPop scratch0).1.popSize = scratch0.popSize :=
  ⟨rfl, submitScratch_commits true rm1 uniSexPop scratch0 (Or.inr (Or.inl rfl))⟩

/-- C3, the claim as stated fails: a base scheme that stores one callback,
object 3, in both of its pointer members is one scheme holding it, yet its copy
constructor adds two references to it; after building such a scheme and
cloning it two live schemes hold object 3 and its count is the initial
value plus 4, not plus 2. -/
theorem callback_count_aliasing :
    (Scheme.mating baseAlias).callbacks = [3, 3] ∧
    ((Scheme.mating baseAlias).clone heap0).out = .ok (Scheme.mating baseAlias) ∧
    ((Scheme.mating baseAlias).clone heap0).heap.refcnt 3 = heap0.refcnt 3 + 2 ∧
    (World.reached false heap0 opsAlias).live =
      [Scheme.mating baseAlias, Scheme.mating baseAlias] ∧
    holders 3 (World.reached false heap0 opsAlias).live = 2 ∧
    (World.reached false heap0 opsAlias).heap.refcnt 3 = heap0.refcnt 3 + 4 ∧
    (World.reached false heap0 opsAlias).heap.refcnt 3 ≠
      heap0.refcnt 3 + (holders 3 (World.reached false heap0 opsAlias).live : Int) := by
  refine ⟨rfl, rfl, rfl, rfl, by decide, rfl, by decide⟩

/-- C3, amended: in every world a program reaches by constructing, cloning and
destroying schemes: a constructor call that returns a scheme adds to every
object one reference per callback pointer the new scheme holds to it, and one
that raises raises `ValueError` and adds none; a clone holds the callbacks of
its original and adds one reference per pointer it holds; a destruction
removes one reference per pointer the scheme holds. Hence the count of every
object is its initial value plus the number of references the live schemes
hold to it, which is the number of live schemes holding it when no scheme
stores one callback in two of its pointers, and it is the initial value once
no scheme is alive. -/
theorem callback_references_balanced (debug : Bool) (h0 : PyHeap) (ops : List Op) :
    (∀ (c : CtorCall) (r : Res Scheme),
      c.run debug (World.reached debug h0 ops).live (World.reached debug h0 ops).heap
        = some r →
      (∀ s, r.out = .ok s →
        ∀ x, r.heap.refcnt x =
          (World.reached debug h0 ops).heap.refcnt x + (s.callbacks.count x : Int)) ∧
      (∀ e, r.out = .error e →
        (∃ msg, e = .ValueError msg) ∧
        ∀ x, r.heap.refcnt x = (World.reached debug h0 ops).heap.refcnt x)) ∧
    (∀ (i : Nat) (s : Scheme), (World.reached debug h0 ops).live[i]? = some s →
      ∃ c : Scheme, (s.clone (World.reached debug h0 ops).heap).out = .ok c ∧
        c.callbacks = s.callbacks ∧
        ∀ x, (s.clone (World.reached debug h0 ops).heap).heap.refcnt x =
          (World.reached debug h0 ops).heap.refcnt x + (c.callbacks.count x : Int)) ∧
    (∀ (i : Nat) (s : Scheme), (World.reached debug h0 ops).live[i]? = some s →
      ∀ x, (s.destroy (World.reached debug h0 ops).heap).refcnt x =
        (World.reached debug h0 ops).heap.refcnt x - (s.callbacks.count x : Int)) ∧
    (∀ x, (World.reached debug h0 ops).heap.refcnt x =
      h0.refcnt x + (holdings x (World.reached debug h0 ops).live : Int)) ∧
    ((∀ s ∈ (World.reached debug h0 ops).live, s.callbacks.Nodup) →
      ∀ x, (World.reached debug h0 ops).heap.refcnt x =
        h0.refcnt x + (holders x (World.reached debug h0 ops).live : Int)) ∧
    ((World.reached debug h0 ops).live = [] →
      ∀ x, (World.reached debug h0 ops).heap.refcnt x = h0.refcnt x) := by
  have hinv : (World.reached debug h0 ops).Inv h0 := World.Inv.run debug ops (World.Inv.init h0)
  generalize World.reached debug h0 ops = w at hinv
  refine ⟨fun c r hr => ?_, fun i s hi => ?_, fun i s _ x => destroy_refcnt s w.heap x, hinv.2,
    fun hn x => ?_, fun hl x => ?_⟩
  · have ho := CtorCall.run_outcome debug w.live w.heap hinv.1 c r hr
    exact ⟨fun s hs => (ho.of_ok hs).2, fun e he => ho.of_error he⟩
  · obtain ⟨c, h1, hcl, -, -, -, hcb, -, hrc⟩ :=
      clone_spec s w.heap (hinv.1 s (List.getElem?_mem hi))
    exact ⟨c, by rw [hcl], hcb, by rw [hcl]; exact hrc⟩
  · rw [hinv.2 x, holdings_eq_holders x w.live hn]
  · rw [hinv.2 x, hl]; simp [holdings]

/-- C3, amended, at the run `ops1`: once the three schemes are destroyed every
count is back at its initial value. -/
theorem callback_references_balanced_witness :
    (World.reached false heap0 ops1).live = [] ∧
    ∀ x, (World.reached false heap0 ops1).heap.refcnt x = heap0.refcnt x :=
  ⟨rfl, (callback_references_balanced false heap0 ops1).2.2.2.2.2 rfl⟩

/-- C4: with a frequency callback that is `NULL` or not callable the
constructors of `controlledMating`, `controlledBinomialSelection` and
`controlledRandomMating` raise `ValueError`, and with such a function (the
default `NULL` included) so does the constructor of `pyMating`; none of them
returns a scheme. -/
theorem invalid_callback_rejected (debug : Bool) (m : Scheme) (loci alleles : List Int)
    (f : PyPtr) (range : ℚ) (acc : Int) (a : MatingArgs) (c : Bool) (size : List Nat)
    (expr : String) (sizeFunc : PyPtr) (h : PyHeap) (hf : PyCallable_Check h f = false) :
    (∃ msg, (controlledMating.ctor debug m loci alleles f range h).out =
      .error (.ValueError msg)) ∧
    (∃ msg, (controlledBinomialSelection.ctor loci alleles f a h).out =
      .error (.ValueError msg)) ∧
    (∃ msg, (controlledRandomMating.ctor loci alleles f acc a c h).out =
      .error (.ValueError msg)) ∧
    (∃ msg, (pyMating.ctor f size expr sizeFunc h).out = .error (.ValueError msg)) := by
  refine ⟨?_, ?_, ?_, ?_⟩
  · unfold controlledMating.ctor
    rw [mating_ctor_default]
    dsimp only
    split_ifs
    · exact ⟨_, rfl⟩
    · exact ⟨_, rfl⟩
    · exact ⟨_, rfl⟩
    · cases f with
      | none => exact ⟨_, rfl⟩
      | some g =>
        have hg : h.callable g = false := hf
        simp [hg]
  · unfold controlledBinomialSelection.ctor
    rcases mating_ctor_cases a h with ⟨msg, hm⟩ | ⟨b, hm, -, -⟩
    · rw [hm]; exact ⟨msg, rfl⟩
    · rw [hm]
      dsimp only
      split_ifs
      · exact ⟨_, rfl⟩
      · cases f with
        | none => exact ⟨_, rfl⟩
        | some g =>
          have hg : h.callable g = false := hf
          simp [hg]
  · unfold controlledRandomMating.ctor
    rcases mating_ctor_cases a h with ⟨msg, hm⟩ | ⟨b, hm, -, -⟩
    · rw [hm]; exact ⟨msg, rfl⟩
    · rw [hm]
      cases f with
      | none => exact ⟨_, rfl⟩
      | some g =>
        have hg : h.callable g = false := hf
        simp [hg]
  · unfold pyMating.ctor
    rcases mating_ctor_cases ⟨1, none, 0, MATE_NumOffspring, size, expr, sizeFunc⟩ h with
      ⟨msg, hm⟩ | ⟨b, hm, -, -⟩
    · rw [hm]; exact ⟨msg, rfl⟩
    · rw [hm]
      have hg : PyCallable_Check
          (Py_XINCREF sizeFunc (Py_XINCREF (none : PyPtr) h)) f = false := by
        cases f with
        | none => rfl
        | some g => simpa [PyCallable_Check] using hf
      simp [hg]

/-- C4 at the missing callback `NULL`, the default argument of `pyMating`. -/
theorem invalid_callback_rejected_witness :
    PyCallable_Check heap0 none = false ∧
    (∃ msg, (controlledMating.ctor false rm1 [0] [1] none (1 / 100) heap0).out =
      .error (.ValueError msg)) ∧
    (∃ msg, (controlledBinomialSelection.ctor [0] [1] none args1 heap0).out =
      .error (.ValueError msg)) ∧
    (∃ msg, (controlledRandomMating.ctor [0] [1] none 0 args1 true heap0).out =
      .error (.ValueError msg)) ∧
    (∃ msg, (pyMating.ctor none [] "" none heap0).out = .error (.ValueError msg)) :=
  ⟨rfl, invalid_callback_rejected false rm1 [0] [1] none (1 / 100) 0 args1 true [] "" none
    heap0 rfl⟩

/-- C5, the claim as stated fails: `controlledRandomMating` built with empty
`loci` and `alleles`, or with two loci and one allele, and a callable
frequency callback returns a scheme with that control spec; so does
`controlledMating` with empty `loci` and `alleles` when the debugging checks
are not compiled in. -/
theorem control_spec_not_enforced :
    (controlledRandomMating.ctor [] [] (some 5) 0 MatingArgs.default true heap0).out =
      .ok (.controlledRandomMating base0 true [] [] [] (some 5)) ∧
    (controlledRandomMating.ctor [0, 1] [1] (some 5) 0 MatingArgs.default true heap0).out =
      .ok (.controlledRandomMating base0 true [] [0, 1] [1] (some 5)) ∧
    (controlledMating.ctor false rm1 [] [] (some 5) (1 / 100) heap0).out =
      .ok (.controlledMating base0 rm1 [] [] (some 5) (1 / 100)) :=
  ⟨rfl, rfl, rfl⟩

/-- C5, amended: for `loci` empty or of another length than `alleles`, the
constructor of `controlledBinomialSelection` raises `ValueError`, and so does
the constructor of `controlledMating` when the debugging checks are compiled
in; hence a scheme either of them returns stores `loci` and `alleles` of one
length, at least 1. -/
theorem control_spec_enforced (m : Scheme) (loci alleles : List Int) (f : PyPtr) (range : ℚ)
    (a : MatingArgs) (h : PyHeap) :
    ((loci = [] ∨ loci.length ≠ alleles.length) →
      (∃ msg, (controlledBinomialSelection.ctor loci alleles f a h).out =
        .error (.ValueError msg)) ∧
      (∃ msg, (controlledMating.ctor true m loci alleles f range h).out =
        .error (.ValueError msg))) ∧
    (∀ s, (controlledBinomialSelection.ctor loci alleles f a h).out = .ok s →
      s.controlSpec = some (loci, alleles, f, none) ∧
      loci.length = alleles.length ∧ 1 ≤ loci.length) ∧
    (∀ s, (controlledMating.ctor true m loci alleles f range h).out = .ok s →
      s.controlSpec = some (loci, alleles, f, some range) ∧
      loci.length = alleles.length ∧ 1 ≤ loci.length) := by
  have hgood : ∀ l1 l2 : List Int, ¬ (l1 = [] ∨ l1.length ≠ l2.length) →
      l1.length = l2.length ∧ 1 ≤ l1.length := by
    intro l1 l2 hl
    cases l1 with
    | nil => simp at hl
    | cons x xs =>
      simp only [reduceCtorEq, false_or, ne_eq, not_not] at hl
      exact ⟨hl, by simp⟩
  have hcbs : (∃ msg, (controlledBinomialSelection.ctor loci alleles f a h).out =
        .error (.ValueError msg)) ∨
      (∃ s, (controlledBinomialSelection.ctor loci alleles f a h).out = .ok s ∧
        s.controlSpec = some (loci, alleles, f, none) ∧
        ¬ (loci = [] ∨ loci.length ≠ alleles.length)) := by
    unfold controlledBinomialSelection.ctor
    rcases mating_ctor_cases a h with ⟨msg, hm⟩ | ⟨b, hm, -, -⟩
    · rw [hm]; exact Or.inl ⟨msg, rfl⟩
    · rw [hm]
      dsimp only
      split_ifs with h1
      · exact Or.inl ⟨_, rfl⟩
      · cases f with
        | none => exact Or.inl ⟨_, rfl⟩
        | some g =>
          dsimp only
          split_ifs
          · exact Or.inl ⟨_, rfl⟩
          · exact Or.inr ⟨_, rfl, rfl, by simpa [List.isEmpty_iff] using h1⟩
  have hcmA : (loci = [] ∨ loci.length ≠ alleles.length) →
      ∃ msg, (controlledMating.ctor true m loci alleles f range h).out =
        .error (.ValueError msg) := by
    intro hbad
    unfold controlledMating.ctor
    rw [mating_ctor_default]
    dsimp only [DBG_FAILIF]
    split_ifs with h1 h2 h3
    · exact ⟨_, rfl⟩
    · exact ⟨_, rfl⟩
    · exact ⟨_, rfl⟩
    · exfalso
      simp only [Bool.true_and, List.isEmpty_iff] at h1
      simp only [Bool.true_and, bne_iff_ne, ne_eq, not_not] at h3
      rcases hbad with hb | hb
      · exact h1 hb
      · exact hb h3
  have hcmB : ∀ s, (controlledMating.ctor true m loci alleles f range h).out = .ok s →
      s.controlSpec = some (loci, alleles, f, some range) := by
    intro s
    unfold controlledMating.ctor
    rw [mating_ctor_default]
    dsimp only
    split_ifs
    · intro hs; cases hs
    · intro hs; cases hs
    · intro hs; cases hs
    · cases f with
      | none => intro hs; cases hs
      | some g =>
        dsimp only
        split_ifs
        · intro hs; cases hs
        · rcases m.clone (Py_INCREF g h) with ⟨out, hp⟩
          cases out with
          | error e => intro hs; cases hs
          | ok m1 =>
            intro hs
            simp only [Except.ok.injEq] at hs
            rw [← hs]; rfl
  refine ⟨fun hbad => ⟨?_, hcmA hbad⟩, fun s hs => ?_, fun s hs => ⟨hcmB s hs, ?_⟩⟩
  · rcases hcbs with hr | ⟨s, -, -, hg⟩
    · exact hr
    · exact absurd hbad hg
  · rcases hcbs with ⟨msg, hr⟩ | ⟨s1, hs1, hcs, hg⟩
    · rw [hr] at hs; cases hs
    · rw [hs1] at hs
      cases hs
      exact ⟨hcs, hgood loci alleles hg⟩
  · by_cases hbad : loci = [] ∨ loci.length ≠ alleles.length
    · obtain ⟨msg, hr⟩ := hcmA hbad
      rw [hr] at hs; cases hs
    · exact hgood loci alleles hbad

/-- C5, amended, at empty `loci` and `alleles` with the callable callback 5. -/
theorem control_spec_enforced_witness :
    (([] : List Int) = [] ∨ ([] : List Int).length ≠ ([] : List Int).length) ∧
    (∃ msg, (controlledBinomialSelection.ctor [] [] (some 5) args1 heap0).out =
      .error (.ValueError msg)) ∧
    (∃ msg, (controlledMating.ctor true rm1 [] [] (some 5) (1 / 100) heap0).out =
      .error (.ValueError msg)) :=
  ⟨Or.inl rfl,
    (control_spec_enforced rm1 [] [] (some 5) (1 / 100) args1 heap0).1 (Or.inl rfl)⟩

/-- C6, the claim as stated fails: the haploid population `haploidPop` has
ploidy 1, and `isCompatible` of `randomMating` and of `controlledRandomMating`
returns true for it. -/
theorem isCompatible_accepts_haploid :
    haploidPop.ploidy ≠ 2 ∧
    ((Scheme.randomMating base0 false []).isCompatible false haploidPop).1 = true ∧
    ((Scheme.controlledRandomMating base0 false [] [0] [1] (some 0)).isCompatible false
      haploidPop).1 = true := by
  decide

/-- C6, amended: for every population, whatever its ploidy, `isCompatible` of
`randomMating` and of `controlledRandomMating` returns true; a population that
is not diploid is reported only by the warning line, which is printed exactly
when the ploidy is not 2 and the build is not OPTIMIZED. -/
theorem isCompatible_warns_only (optimized : Bool) (b : mating) (c : Bool) (fam : List Int)
    (loci alleles : List Int) (f : PyPtr) (pop : population) :
    ((Scheme.randomMating b c fam).isCompatible optimized pop).1 = true ∧
    ((Scheme.controlledRandomMating b c fam loci alleles f).isCompatible optimized pop).1
      = true ∧
    ((Scheme.randomMating b c fam).isCompatible optimized pop).2 =
      ((Scheme.controlledRandomMating b c fam loci alleles f).isCompatible optimized pop).2 ∧
    ("Warning: This mating type only works with diploid population." ∈
        ((Scheme.randomMating b c fam).isCompatible optimized pop).2 ↔
      (pop.ploidy ≠ 2 ∧ optimized = false)) := by
  refine ⟨rfl, rfl, rfl, ?_⟩
  cases optimized <;> by_cases hp : pop.ploidy = 2 <;>
    simp [Scheme.isCompatible, randomMating.isCompatible, hp]

/-- C8: `resetNumOffspring()` sets the first-offspring flag to true whatever it
was, leaves numOffspring, numOffspringFunc, maxNumOffspring, mode,
newSubPopSize, newSubPopSizeExpr and newSubPopSizeFunc as they were, and
applying it twice gives the state applying it once gives. -/
theorem resetNumOffspring_clears_cache_only (s : mating) :
    s.resetNumOffspring.m_firstOffspring = true ∧
    s.resetNumOffspring.m_numOffspring = s.m_numOffspring ∧
    s.resetNumOffspring.m_numOffspringFunc = s.m_numOffspringFunc ∧
    s.resetNumOffspring.m_maxNumOffspring = s.m_maxNumOffspring ∧
    s.resetNumOffspring.m_mode = s.m_mode ∧
    s.resetNumOffspring.m_subPopSize = s.m_subPopSize ∧
    s.resetNumOffspring.m_subPopSizeExpr = s.m_subPopSizeExpr ∧
    s.resetNumOffspring.m_subPopSizeFunc = s.m_subPopSizeFunc ∧
    s.resetNumOffspring.resetNumOffspring = s.resetNumOffspring := by
  simp [mating.resetNumOffspring]

/-- C9: `mate` of the base class `mating` returns no value: it raises
`SystemError`, and the population and the scratch are what they were. -/
theorem base_mate_raises_SystemError (s : mating) (pop scratch : population)
    (ops : List Operator) (submit : Bool) :
    (∃ msg, (s.mate pop scratch ops submit).ret = .error (.SystemError msg)) ∧
    (∀ v, (s.mate pop scratch ops submit).ret ≠ .ok v) ∧
    (s.mate pop scratch ops submit).pop = pop ∧
    (s.mate pop scratch ops submit).scratch = scratch := by
  refine ⟨⟨_, rfl⟩, ?_, rfl, rfl⟩
  intro v hv
  simp [mating.mate] at hv

/-- C10, the claim as stated fails: the constructor accepts the uniform mode
with numOffspring and maxNumOffspring left at their defaults 1.0 and 0; the
interval from the floor of numOffspring to maxNumOffspring is then empty, so
no integer lies in it, and the value `numOffspring` returns does not. -/
theorem uniform_defaults_empty_interval :
    (mating.ctor argsUniformDefault heap0).out = .ok baseUniformDefault ∧
    baseUniformDefault.m_mode = MATE_UniformDistribution ∧
    (¬ ∃ k : Nat, ⌊baseUniformDefault.m_numOffspring⌋ ≤ (k : Int) ∧
      k ≤ baseUniformDefault.m_maxNumOffspring) ∧
    ¬ (⌊baseUniformDefault.m_numOffspring⌋ ≤
        ((baseUniformDefault.numOffspring (fun _ _ => 1) rng7 0).1 : Int) ∧
      (baseUniformDefault.numOffspring (fun _ _ => 1) rng7 0).1 ≤
        baseUniformDefault.m_maxNumOffspring) := by
  have hfl : ⌊baseUniformDefault.m_numOffspring⌋ = 1 := by
    simp [baseUniformDefault]
  refine ⟨rfl, rfl, ?_, ?_⟩
  · rintro ⟨k, h1, h2⟩
    rw [hfl] at h1
    have : k = 0 := by simpa [baseUniformDefault] using h2
    subst this
    simp at h1
  · rintro ⟨h1, h2⟩
    rw [hfl] at h1
    have h3 : (baseUniformDefault.numOffspring (fun _ _ => 1) rng7 0).1 = 0 := by
      simpa [baseUniformDefault] using h2
    rw [h3] at h1
    simp at h1

/-- C10, amended: for every configuration the constructor accepts with the
uniform mode and the floor of numOffspring at most maxNumOffspring, and for
every generation, `numOffspring(gen)` returns an integer between the floor of
numOffspring and maxNumOffspring, both inclusive. -/
theorem numOffspring_uniform_in_interval (a : MatingArgs) (h : PyHeap) (b : mating)
    (call : PyObj → Int → ℚ) (rng : RandomSource) (gen : Int)
    (hc : (mating.ctor a h).out = .ok b) (hm : a.mode = MATE_UniformDistribution)
    (hle : ⌊a.numOffspring⌋ ≤ (a.maxNumOffspring : Int)) :
    ⌊b.m_numOffspring⌋ ≤ ((b.numOffspring call rng gen).1 : Int) ∧
    (b.numOffspring call rng gen).1 ≤ b.m_maxNumOffspring := by
  rcases mating_ctor_cases a h with ⟨msg, he⟩ | ⟨b1, hb, hcfg, -⟩
  · rw [he] at hc; cases hc
  · rw [hb] at hc
    cases hc
    simp only [mating.config, Prod.mk.injEq] at hcfg
    obtain ⟨h1, -, h3, h4, -, -, -⟩ := hcfg
    have hlo : ⌊b.m_numOffspring⌋.toNat ≤ b.m_maxNumOffspring := by
      rw [h1, h3]; omega
    have hk : (b.numOffspring call rng gen).1 =
        ⌊b.m_numOffspring⌋.toNat +
          rng.raw % (b.m_maxNumOffspring - ⌊b.m_numOffspring⌋.toNat + 1) := by
      simp [mating.numOffspring, h4, hm, hlo, MATE_UniformDistribution, MATE_NumOffspring,
        MATE_NumOffspringEachFamily, MATE_GeometricDistribution, MATE_PoissonDistribution,
        MATE_BinomialDistribution]
    have hmod : rng.raw % (b.m_maxNumOffspring - ⌊b.m_numOffspring⌋.toNat + 1) <
        b.m_maxNumOffspring - ⌊b.m_numOffspring⌋.toNat + 1 := Nat.mod_lt _ (Nat.succ_pos _)
    have hself : ⌊b.m_numOffspring⌋ ≤ (⌊b.m_numOffspring⌋.toNat : Int) := Int.self_le_toNat _
    rw [hk]
    constructor
    · exact le_trans hself (by exact_mod_cast Nat.le_add_right _ _)
    · omega

/-- C10, amended, at a uniform family size between 2 and 5 with raw draw 7. -/
theorem numOffspring_uniform_in_interval_witness :
    (mating.ctor argsUniform25 heap0).out = .ok baseUniform25 ∧
    ⌊baseUniform25.m_numOffspring⌋ ≤ ((baseUniform25.numOffspring (fun _ _ => 1) rng7 0).1 : Int) ∧
    (baseUniform25.numOffspring (fun _ _ => 1) rng7 0).1 ≤ baseUniform25.m_maxNumOffspring :=
  ⟨rfl, numOffspring_uniform_in_interval argsUniform25 heap0 baseUniform25 (fun _ _ => 1) rng7 0
    rfl rfl (by simp [argsUniform25])⟩

/-- C11, the claim as stated fails: with the fixed size vector `[10]` and a
population of two subpopulations the chosen sizes are `[10]`; no scratch can
have these sizes and two subpopulations, and the resizer raises a
configuration error instead of shaping the scratch. -/
theorem resizer_rejects_wrong_length :
    baseFixed10.newSubPopSizes host0 uniSexPop = [10] ∧
    uniSexPop.numSubPop = 2 ∧
    (∀ sc, baseFixed10.prepareScratchPop host0 uniSexPop scratch0 ≠ .ok sc) ∧
    ¬ ∃ sc : population, sc.subPopSizes = baseFixed10.newSubPopSizes host0 uniSexPop ∧
      sc.numSubPop = uniSexPop.numSubPop := by
  refine ⟨rfl, rfl, ?_, ?_⟩
  · intro sc hsc
    simp [mating.prepareScratchPop, mating.newSubPopSizes, baseFixed10, uniSexPop,
      population.numSubPop] at hsc
  · rintro ⟨sc, h1, h2⟩
    have h3 : sc.subPopSizes.length = sc.numSubPop := by
      simp [population.subPopSizes, population.numSubPop]
    rw [h1, h2] at h3
    revert h3
    decide

/-- C11, amended: the resizer picks the sizes the size callback returns if one
is configured, otherwise the vector the size expression evaluates to if the
expression is not empty, otherwise the fixed size vector if it is not empty,
otherwise the current sizes; when the chosen vector has as many entries as
the population has subpopulations, `prepareScratchPop` gives the scratch
these sizes, so the scratch has as many subpopulations as the population and
its total size is the sum of the chosen sizes. -/
theorem prepareScratchPop_sizes (s : mating) (host : Host) (pop scratch : population)
    (hlen : (s.newSubPopSizes host pop).length = pop.numSubPop) :
    (∀ f, s.m_subPopSizeFunc = some f →
      s.newSubPopSizes host pop = host.callSizeFunc f pop.gen pop.subPopSizes) ∧
    (s.m_subPopSizeFunc = none → s.m_subPopSizeExpr ≠ "" →
      s.newSubPopSizes host pop = host.evalSizeExpr s.m_subPopSizeExpr pop.vars) ∧
    (s.m_subPopSizeFunc = none → s.m_subPopSizeExpr = "" → s.m_subPopSize ≠ [] →
      s.newSubPopSizes host pop = s.m_subPopSize) ∧
    (s.m_subPopSizeFunc = none → s.m_subPopSizeExpr = "" → s.m_subPopSize = [] →
      s.newSubPopSizes host pop = pop.subPopSizes) ∧
    ∃ sc, s.prepareScratchPop host pop scratch = .ok sc ∧
      sc.subPopSizes = s.newSubPopSizes host pop ∧
      sc.numSubPop = pop.numSubPop ∧
      sc.popSize = (s.newSubPopSizes host pop).sum := by
  refine ⟨?_, ?_, ?_, ?_, ?_⟩
  · intro f hf; simp [mating.newSubPopSizes, hf]
  · intro hf he; simp [mating.newSubPopSizes, hf, he]
  · intro hf he hv; simp [mating.newSubPopSizes, hf, he, hv]
  · intro hf he hv; simp [mating.newSubPopSizes, hf, he, hv]
  · have hsz : (List.map (fun n => List.replicate n individual.blank)
        (s.newSubPopSizes host pop)).map List.length = s.newSubPopSizes host pop := by
      simp [List.map_map, Function.comp_def]
    refine ⟨{ scratch with
              ploidy := pop.ploidy
              subPops := (s.newSubPopSizes host pop).map
                fun n => List.replicate n individual.blank }, ?_, hsz, ?_, ?_⟩
    · simp [mating.prepareScratchPop, hlen]
    · simpa [population.numSubPop] using hlen
    · simp only [population.popSize, population.subPopSizes, hsz]

/-- C11, amended, at the fixed size vector `[3, 4]` and a population of two
subpopulations. -/
theorem prepareScratchPop_sizes_witness :
    (baseFixed34.newSubPopSizes host0 uniSexPop).length = uniSexPop.numSubPop ∧
    baseFixed34.newSubPopSizes host0 uniSexPop = [3, 4] ∧
    ∃ sc, baseFixed34.prepareScratchPop host0 uniSexPop scratch0 = .ok sc ∧
      sc.subPopSizes = baseFixed34.newSubPopSizes host0 uniSexPop ∧
      sc.numSubPop = uniSexPop.numSubPop ∧
      sc.popSize = (baseFixed34.newSubPopSizes host0 uniSexPop).sum :=
  ⟨rfl, rfl, (prepareScratchPop_sizes baseFixed34 host0 uniSexPop scratch0 rfl).2.2.2.2⟩

/-- C12: with the remaining arguments such that the base constructor returns,
the constructor of `controlledBinomialSelection` raises `ValueError` if and
only if `loci` is empty, or of another length than `alleles`, or `freqFunc`
is `NULL` or not callable, and raises nothing else; when it does not raise it
returns a scheme that stores `loci`, `alleles` and `freqFunc` as given. -/
theorem controlledBinomialSelection_raises_iff (loci alleles : List Int) (f : PyPtr)
    (a : MatingArgs) (h : PyHeap) (b : mating) (hb : (mating.ctor a h).out = .ok b) :
    ((∃ msg, (controlledBinomialSelection.ctor loci alleles f a h).out =
        .error (.ValueError msg)) ↔
      (loci = [] ∨ loci.length ≠ alleles.length ∨ f = none ∨
        PyCallable_Check h f = false)) ∧
    (∀ e, (controlledBinomialSelection.ctor loci alleles f a h).out = .error e →
      ∃ msg, e = .ValueError msg) ∧
    (¬ (loci = [] ∨ loci.length ≠ alleles.length ∨ f = none ∨
        PyCallable_Check h f = false) →
      ∃ fam, (controlledBinomialSelection.ctor loci alleles f a h).out =
        .ok (.controlledBinomialSelection b fam loci alleles f)) := by
  rcases mating_ctor_cases a h with ⟨msg, hm⟩ | ⟨b1, hm, -, -⟩
  · rw [hm] at hb; cases hb
  · have hbb : b1 = b := by
      rw [hm] at hb
      simpa using hb
    subst hbb
    have hcall : ∀ g, (Py_XINCREF a.newSubPopSizeFunc
        (Py_XINCREF a.numOffspringFunc h)).callable g = h.callable g := by
      intro g; simp
    by_cases hbad : loci = [] ∨ loci.length ≠ alleles.length ∨ f = none ∨
        PyCallable_Check h f = false
    · have hr : ∃ msg, (controlledBinomialSelection.ctor loci alleles f a h).out =
          .error (.ValueError msg) := by
        unfold controlledBinomialSelection.ctor
        rw [hm]
        dsimp only
        split_ifs with h1
        · exact ⟨_, rfl⟩
        · cases f with
          | none => exact ⟨_, rfl⟩
          | some g =>
            dsimp only
            split_ifs with h2
            · exact ⟨_, rfl⟩
            · exfalso
              rw [hcall] at h2
              simp only [Bool.or_eq_true, bne_iff_ne, ne_eq, not_or, not_not,
                List.isEmpty_iff] at h1
              rcases hbad with hx | hx | hx | hx
              · exact h1.1 hx
              · exact hx h1.2
              · cases hx
              · exact h2 hx
      refine ⟨⟨fun _ => hbad, fun _ => hr⟩, ?_, fun hn => absurd hbad hn⟩
      intro e he
      obtain ⟨msg, hmsg⟩ := hr
      rw [hmsg] at he
      cases he
      exact ⟨msg, rfl⟩
    · have hok : (controlledBinomialSelection.ctor loci alleles f a h).out =
          .ok (.controlledBinomialSelection b1 [] loci alleles f) := by
        simp only [not_or, ne_eq, not_not] at hbad
        obtain ⟨hl, hlen, hfn, hfc⟩ := hbad
        obtain ⟨g, rfl⟩ := Option.ne_none_iff_exists'.mp hfn
        have hg : h.callable g = true := by
          simpa [PyCallable_Check] using hfc
        unfold controlledBinomialSelection.ctor
        rw [hm]
        have hcond : (loci.isEmpty || loci.length != alleles.length) = false := by
          simp [List.isEmpty_iff, hl, hlen]
        simp [hcond, hg]
      refine ⟨⟨fun ⟨msg, hmsg⟩ => ?_, fun hx => absurd hx hbad⟩, ?_, fun _ => ⟨[], hok⟩⟩
      · rw [hok] at hmsg; cases hmsg
      · intro e he
        rw [hok] at he; cases he

/-- C12 at the default remaining arguments, one locus and the callable
callback 5. -/
theorem controlledBinomialSelection_raises_iff_witness :
    (mating.ctor MatingArgs.default heap0).out = .ok base0 ∧
    ((∃ msg, (controlledBinomialSelection.ctor [0] [1] (some 5) MatingArgs.default heap0).out =
        .error (.ValueError msg)) ↔
      (([0] : List Int) = [] ∨ ([0] : List Int).length ≠ ([1] : List Int).length ∨
        (some 5 : PyPtr) = none ∨ PyCallable_Check heap0 (some 5) = false)) :=
  ⟨rfl, (controlledBinomialSelection_raises_iff [0] [1] (some 5) MatingArgs.default heap0
    base0 rfl).1⟩

/-- C13: a `controlledMating` built around the scheme `m` answers
`isCompatible(pop)` as `m` does, and so does every clone of the controller,
after any number of `clone()` calls. -/
theorem controlledMating_isCompatible_delegates (debug optimized : Bool) (m : Scheme)
    (loci alleles : List Int) (f : PyPtr) (range : ℚ) (h : PyHeap) (s : Scheme)
    (pop : population)
    (hc : (controlledMating.ctor debug m loci alleles f range h).out = .ok s) :
    s.isCompatible optimized pop = m.isCompatible optimized pop ∧
    ∀ (hs : List PyHeap) (c : Scheme), s.cloneChain hs = some c →
      c.isCompatible optimized pop = m.isCompatible optimized pop := by
  obtain ⟨g, m1, hp, -, hcl, rfl⟩ :=
    controlledMating_ctor_ok debug m loci alleles f range h s hc
  have h1 : (Scheme.controlledMating base0 m1 loci alleles (some g) range).isCompatible
      optimized pop = m.isCompatible optimized pop :=
    clone_isCompatible m (Py_INCREF g h) m1 (by rw [hcl]) optimized pop
  exact ⟨h1, fun hs c hcc => (cloneChain_isCompatible hs _ c hcc optimized pop).trans h1⟩

/-- C13 at the controller `cm1` built around the random mating `rm1`. -/
theorem controlledMating_isCompatible_delegates_witness :
    (controlledMating.ctor false rm1 [0] [1] (some 5) (1 / 100) heap0).out = .ok cm1 ∧
    cm1.isCompatible false haploidPop = rm1.isCompatible false haploidPop ∧
    ∀ (hs : List PyHeap) (c : Scheme), cm1.cloneChain hs = some c →
      c.isCompatible false haploidPop = rm1.isCompatible false haploidPop :=
  ⟨rfl, controlledMating_isCompatible_delegates false false rm1 [0] [1] (some 5) (1 / 100)
    heap0 cm1 haploidPop rfl⟩

/-- C14: in every `controlledMating`, `controlledBinomialSelection`,
`controlledRandomMating` and `pyMating` that exists, and in every scheme got
from it by any number of `clone()` calls, the stored callback is not `NULL`;
so `clone()` returns a scheme and its unguarded `Py_INCREF` never meets
`NULL`. -/
theorem stored_callback_never_null (s : Scheme) (hs : Reachable s) :
    (∀ p, s.storedCallback = some p → p ≠ none) ∧
    (∀ h, (∃ c, (s.clone h).out = .ok c) ∧ (s.clone h).out ≠ .error .NullDereference) ∧
    (∀ (hl : List PyHeap) (c : Scheme), s.cloneChain hl = some c →
      (∀ p, c.storedCallback = some p → p ≠ none) ∧
      ∀ h, (c.clone h).out ≠ .error .NullDereference) := by
  have key : ∀ t : Scheme, Reachable t →
      (∀ p, t.storedCallback = some p → p ≠ none) ∧
      ∀ h, (∃ c, (t.clone h).out = .ok c) ∧ (t.clone h).out ≠ .error .NullDereference := by
    intro t ht
    refine ⟨WF_storedCallback t ht.wf, fun h => ?_⟩
    obtain ⟨c, h1, hcl, -⟩ := clone_spec t h ht.wf
    rw [hcl]
    exact ⟨⟨c, rfl⟩, by simp⟩
  refine ⟨(key s hs).1, (key s hs).2, fun hl c hc => ?_⟩
  have hr := key c (cloneChain_reachable hl s c hs hc)
  exact ⟨hr.1, fun h => (hr.2 h).2⟩

/-- C14 at the controller `cm1`, whose frequency callback is object 5. -/
theorem stored_callback_never_null_witness :
    Reachable cm1 ∧ (∀ p, cm1.storedCallback = some p → p ≠ none) ∧
    ∀ h, (cm1.clone h).out ≠ .error .NullDereference :=
  ⟨cm1_reachable, (stored_callback_never_null cm1 cm1_reachable).1,
    fun h => ((stored_callback_never_null cm1 cm1_reachable).2.1 h).2⟩

/-- C15: whatever the first-offspring flag of a base scheme, its copy has the
flag set, `clone()` returns the state `resetNumOffspring()` leaves, and the
clone equals the original exactly when the flag of the original is set. -/
theorem clone_clears_cache (s : mating) (h : PyHeap) :
    (s.copy h).1.m_firstOffspring = true ∧
    ((Scheme.mating s).clone h).out = .ok (Scheme.mating s.resetNumOffspring) ∧
    (s.copy h).1 = s.resetNumOffspring ∧
    ((s.copy h).1 = s ↔ s.m_firstOffspring = true) ∧
    (((Scheme.mating s).clone h).out = .ok (Scheme.mating s) ↔ s.m_firstOffspring = true) := by
  have h3 : (s.copy h).1 = s.resetNumOffspring := rfl
  have h4 : (s.resetNumOffspring = s ↔ s.m_firstOffspring = true) := by
    constructor
    · intro e; rw [← e]; rfl
    · intro e
      cases s
      simp only [mating.resetNumOffspring] at e ⊢
      simp [e]
  refine ⟨rfl, rfl, h3, by rw [h3]; exact h4, ?_⟩
  show Except.ok (Scheme.mating (s.copy h).1) = Except.ok (Scheme.mating s) ↔ _
  rw [h3]
  constructor
  · intro e
    simp only [Except.ok.injEq, Scheme.mating.injEq] at e
    exact h4.mp e
  · intro e; rw [h4.mpr e]

end simuPOP
